import Mathlib

set_option maxRecDepth 8192

/-!
# Verification of the DHCP packet codec (`client/cros/dhcp_packet.py`)

A shallow embedding of the DHCP packet codec: the field/option schema
tables, the in-memory packet model (`DhcpPacket`), the encoder
(`to_binary_string`), the decoder (the `DhcpPacket` constructor taking a
byte string, embedded as `DhcpPacket.ofBytes`), and the factory
constructors.

Modelling conventions:
* Python byte strings are `List Nat` (one entry per byte).
* A Python exception is `Except.error ()`; Python `None` results are
  `Option.none`.  `to_binary_string` thus has type
  `Except Unit (Option (List Nat))`: `.ok none` is the Python `return
  None` path, `.error ()` a raised `struct.error`/`socket.error`.
* Dotted-decimal IPv4 strings are abstracted as their four octets
  (`IpAddr`); `socket.inet_aton`/`inet_ntoa` become the obvious octet
  (de)serialization, with `inet_aton`'s range check kept.
* The heterogeneous Python dictionary values become the sum type `Value`;
  a `struct.pack` type/range failure is modelled as `none` from a pack
  function.
-/

namespace Dhcp

/-- The wire-format kind of a fixed header field (the Python subclasses
`ByteField`, `ShortField`, `IntField`, `HwAddrField`, `IpAddressField`). -/
inductive FieldKind where
  | byte
  | short
  | int
  | hwaddr
  | ipaddr
deriving DecidableEq, Repr

/-- The wire-format kind of an option (the Python subclasses `ByteOption`,
`ShortOption`, `IntOption`, `IpAddressOption`, `IpListOption`, `RawOption`,
`ByteListOption`). -/
inductive OptionKind where
  | byte
  | short
  | int
  | ipaddr
  | ipList
  | raw
  | byteList
deriving DecidableEq, Repr

/-- The `Field` namedtuple: name, byte offset, byte size, plus the
subclass recorded as a `FieldKind`. -/
structure Field where
  name : String
  offset : Nat
  size : Nat
  kind : FieldKind
deriving DecidableEq, Repr

/-- The `Option` namedtuple: name and numeric tag, plus the subclass
recorded as an `OptionKind`. -/
structure OptionDef where
  name : String
  number : Nat
  kind : OptionKind
deriving DecidableEq, Repr

/-- The four octets of a dotted-decimal IPv4 address string. -/
structure IpAddr where
  a : Nat
  b : Nat
  c : Nat
  d : Nat
deriving DecidableEq, Repr

/-- A value stored in a packet's field or option dictionary. -/
inductive Value where
  | int (n : Int)
  | str (s : List Nat)
  | ip (addr : IpAddr)
  | ipList (l : List IpAddr)
  | byteList (l : List Int)
deriving DecidableEq, Repr

/-! ## Constants -/

def DHCP_MIN_PACKET_SIZE : Nat := 300

def IPV4_NULL_ADDRESS : IpAddr := ⟨0, 0, 0, 0⟩

def OPTION_PAD : Nat := 0
def OPTION_END : Nat := 255

def OPTIONS_START_OFFSET : Nat := 240

def FIELD_VALUE_OP_CLIENT_REQUEST : Int := 1
def FIELD_VALUE_OP_SERVER_RESPONSE : Int := 2
def FIELD_VALUE_HWTYPE_10MB_ETH : Int := 1
def FIELD_VALUE_HWADDR_LEN_10MB_ETH : Int := 6
def FIELD_VALUE_MAGIC_COOKIE : Int := 0x63825363

def OPTION_VALUE_DHCP_MESSAGE_TYPE_DISCOVERY : Int := 1
def OPTION_VALUE_DHCP_MESSAGE_TYPE_OFFER : Int := 2
def OPTION_VALUE_DHCP_MESSAGE_TYPE_REQUEST : Int := 3
def OPTION_VALUE_DHCP_MESSAGE_TYPE_ACK : Int := 5
def OPTION_VALUE_DHCP_MESSAGE_TYPE_UNKNOWN : Int := -1

/-! ## Field catalog -/

def FIELD_OP : Field := ⟨"op", 0, 1, .byte⟩
def FIELD_HWTYPE : Field := ⟨"htype", 1, 1, .byte⟩
def FIELD_HWADDR_LEN : Field := ⟨"hlen", 2, 1, .byte⟩
def FIELD_RELAY_HOPS : Field := ⟨"hops", 3, 1, .byte⟩
def FIELD_TRANSACTION_ID : Field := ⟨"xid", 4, 4, .int⟩
def FIELD_TIME_SINCE_START : Field := ⟨"secs", 8, 2, .short⟩
def FIELD_FLAGS : Field := ⟨"flags", 10, 2, .short⟩
def FIELD_CLIENT_IP : Field := ⟨"ciaddr", 12, 4, .ipaddr⟩
def FIELD_YOUR_IP : Field := ⟨"yiaddr", 16, 4, .ipaddr⟩
def FIELD_SERVER_IP : Field := ⟨"siaddr", 20, 4, .ipaddr⟩
def FIELD_GATEWAY_IP : Field := ⟨"giaddr", 24, 4, .ipaddr⟩
def FIELD_CLIENT_HWADDR : Field := ⟨"chaddr", 28, 16, .hwaddr⟩
def FIELD_MAGIC_COOKIE : Field := ⟨"magic_cookie", 236, 4, .int⟩

def DHCP_PACKET_FIELDS : List Field := [
  FIELD_OP,
  FIELD_HWTYPE,
  FIELD_HWADDR_LEN,
  FIELD_RELAY_HOPS,
  FIELD_TRANSACTION_ID,
  FIELD_TIME_SINCE_START,
  FIELD_FLAGS,
  FIELD_CLIENT_IP,
  FIELD_YOUR_IP,
  FIELD_SERVER_IP,
  FIELD_GATEWAY_IP,
  FIELD_CLIENT_HWADDR,
  FIELD_MAGIC_COOKIE]

/-! ## Option catalog -/

def OPTION_TIME_OFFSET : OptionDef := ⟨"time_offset", 2, .int⟩
def OPTION_ROUTERS : OptionDef := ⟨"routers", 3, .ipList⟩
def OPTION_SUBNET_MASK : OptionDef := ⟨"subnet_mask", 1, .ipaddr⟩
def OPTION_TIME_SERVERS : OptionDef := ⟨"time_servers", 4, .ipList⟩
def OPTION_NAME_SERVERS : OptionDef := ⟨"name_servers", 5, .ipList⟩
def OPTION_DNS_SERVERS : OptionDef := ⟨"dns_servers", 6, .ipList⟩
def OPTION_LOG_SERVERS : OptionDef := ⟨"log_servers", 7, .ipList⟩
def OPTION_COOKIE_SERVERS : OptionDef := ⟨"cookie_servers", 8, .ipList⟩
def OPTION_LPR_SERVERS : OptionDef := ⟨"lpr_servers", 9, .ipList⟩
def OPTION_IMPRESS_SERVERS : OptionDef := ⟨"impress_servers", 10, .ipList⟩
def OPTION_RESOURCE_LOC_SERVERS : OptionDef := ⟨"resource_loc_servers", 11, .ipList⟩
def OPTION_HOST_NAME : OptionDef := ⟨"host_name", 12, .raw⟩
def OPTION_BOOT_FILE_SIZE : OptionDef := ⟨"boot_file_size", 13, .short⟩
def OPTION_MERIT_DUMP_FILE : OptionDef := ⟨"merit_dump_file", 14, .raw⟩
def OPTION_DOMAIN_NAME : OptionDef := ⟨"domain_name", 15, .raw⟩
def OPTION_SWAP_SERVER : OptionDef := ⟨"swap_server", 16, .ipaddr⟩
def OPTION_ROOT_PATH : OptionDef := ⟨"root_path", 17, .raw⟩
def OPTION_EXTENSIONS : OptionDef := ⟨"extensions", 18, .raw⟩
def OPTION_REQUESTED_IP : OptionDef := ⟨"requested_ip", 50, .ipaddr⟩
def OPTION_IP_LEASE_TIME : OptionDef := ⟨"ip_lease_time", 51, .int⟩
def OPTION_OPTION_OVERLOAD : OptionDef := ⟨"option_overload", 52, .byte⟩
def OPTION_DHCP_MESSAGE_TYPE : OptionDef := ⟨"dhcp_message_type", 53, .byte⟩
def OPTION_SERVER_ID : OptionDef := ⟨"server_id", 54, .ipaddr⟩
def OPTION_PARAMETER_REQUEST_LIST : OptionDef := ⟨"parameter_request_list", 55, .byteList⟩
def OPTION_MESSAGE : OptionDef := ⟨"message", 56, .raw⟩
def OPTION_MAX_DHCP_MESSAGE_SIZE : OptionDef := ⟨"max_dhcp_message_size", 57, .short⟩
def OPTION_RENEWAL_T1_TIME_VALUE : OptionDef := ⟨"renewal_t1_time_value", 58, .int⟩
def OPTION_REBINDING_T2_TIME_VALUE : OptionDef := ⟨"rebinding_t2_time_value", 59, .int⟩
def OPTION_VENDOR_ID : OptionDef := ⟨"vendor_id", 60, .raw⟩
def OPTION_CLIENT_ID : OptionDef := ⟨"client_id", 61, .raw⟩
def OPTION_TFTP_SERVER_NAME : OptionDef := ⟨"tftp_server_name", 66, .raw⟩
def OPTION_BOOTFILE_NAME : OptionDef := ⟨"bootfile_name", 67, .raw⟩

/-- `DHCP_PACKET_OPTIONS`: the fixed catalog order in which options are
serialized (note: routers(3) is listed before subnet_mask(1)). -/
def DHCP_PACKET_OPTIONS : List OptionDef := [
  OPTION_TIME_OFFSET,
  OPTION_ROUTERS,
  OPTION_SUBNET_MASK,
  OPTION_TIME_SERVERS,
  OPTION_NAME_SERVERS,
  OPTION_DNS_SERVERS,
  OPTION_LOG_SERVERS,
  OPTION_COOKIE_SERVERS,
  OPTION_LPR_SERVERS,
  OPTION_IMPRESS_SERVERS,
  OPTION_RESOURCE_LOC_SERVERS,
  OPTION_HOST_NAME,
  OPTION_BOOT_FILE_SIZE,
  OPTION_MERIT_DUMP_FILE,
  OPTION_SWAP_SERVER,
  OPTION_DOMAIN_NAME,
  OPTION_ROOT_PATH,
  OPTION_EXTENSIONS,
  OPTION_REQUESTED_IP,
  OPTION_IP_LEASE_TIME,
  OPTION_OPTION_OVERLOAD,
  OPTION_DHCP_MESSAGE_TYPE,
  OPTION_SERVER_ID,
  OPTION_PARAMETER_REQUEST_LIST,
  OPTION_MESSAGE,
  OPTION_MAX_DHCP_MESSAGE_SIZE,
  OPTION_RENEWAL_T1_TIME_VALUE,
  OPTION_REBINDING_T2_TIME_VALUE,
  OPTION_VENDOR_ID,
  OPTION_CLIENT_ID,
  OPTION_TFTP_SERVER_NAME,
  OPTION_BOOTFILE_NAME]

/-- Linear scan of the option catalog; `none` for unknown tags. -/
def get_dhcp_option_by_number (number : Nat) : Option OptionDef :=
  DHCP_PACKET_OPTIONS.find? (fun o => o.number = number)

/-! ## Pack / unpack transforms

`struct.pack` raising (out-of-range integer, wrong dynamic type) is
modelled by `none`. -/

/-- Big-endian 2-byte encoding (`struct.pack("!H", ·)`). -/
def be16 (n : Nat) : List Nat := [n / 256, n % 256]

/-- Big-endian 4-byte encoding (`struct.pack("!I", ·)`). -/
def be32 (n : Nat) : List Nat :=
  [n / 16777216, n / 65536 % 256, n / 256 % 256, n % 256]

/-- Big-endian value of a byte string (`struct.unpack` of "!B"/"!H"/"!I"). -/
def beVal (bytes : List Nat) : Nat := bytes.foldl (fun acc b => acc * 256 + b) 0

/-- `Field.pack`: serialize a field value per the field's subclass.
`struct.pack("!16s", s)` truncates or zero-pads to exactly 16 bytes. -/
def Field.pack (f : Field) (v : Value) : Option (List Nat) :=
  match f.kind, v with
  | .byte, .int n => if 0 ≤ n ∧ n < 256 then some [n.toNat] else none
  | .short, .int n => if 0 ≤ n ∧ n < 65536 then some (be16 n.toNat) else none
  | .int, .int n => if 0 ≤ n ∧ n < 4294967296 then some (be32 n.toNat) else none
  | .hwaddr, .str s => some (s.take 16 ++ List.replicate (16 - s.length) 0)
  | .ipaddr, .ip q =>
      if q.a < 256 ∧ q.b < 256 ∧ q.c < 256 ∧ q.d < 256 then
        some [q.a, q.b, q.c, q.d]
      else none
  | _, _ => none

/-- `Field.unpack`: parse a field's byte slice; the `struct` format strings
demand an exact byte count. -/
def Field.unpack (f : Field) (bytes : List Nat) : Option Value :=
  match f.kind with
  | .byte => if bytes.length = 1 then some (.int (beVal bytes)) else none
  | .short => if bytes.length = 2 then some (.int (beVal bytes)) else none
  | .int => if bytes.length = 4 then some (.int (beVal bytes)) else none
  | .hwaddr => if bytes.length = 16 then some (.str bytes) else none
  | .ipaddr =>
      match bytes with
      | [a, b, c, d] => some (.ip ⟨a, b, c, d⟩)
      | _ => none

/-- `IpListOption.pack`: concatenated `inet_aton` of each address. -/
def packIpList : List IpAddr → Option (List Nat)
  | [] => some []
  | q :: rest =>
      if q.a < 256 ∧ q.b < 256 ∧ q.c < 256 ∧ q.d < 256 then
        match packIpList rest with
        | none => none
        | some tail => some (q.a :: q.b :: q.c :: q.d :: tail)
      else none

/-- `IpListOption.unpack`: split into 4-byte chunks; `inet_ntoa` raises on
a short final chunk. -/
def unpackIpList : List Nat → Option (List IpAddr)
  | [] => some []
  | a :: b :: c :: d :: rest =>
      match unpackIpList rest with
      | none => none
      | some tail => some (IpAddr.mk a b c d :: tail)
  | _ => none

/-- `ByteListOption.pack`: `chr` of each element (raises outside 0..255). -/
def packByteList : List Int → Option (List Nat)
  | [] => some []
  | v :: rest =>
      if 0 ≤ v ∧ v < 256 then
        match packByteList rest with
        | none => none
        | some tail => some (v.toNat :: tail)
      else none

/-- `OptionDef.pack`: serialize an option value per the option's subclass. -/
def OptionDef.pack (o : OptionDef) (v : Value) : Option (List Nat) :=
  match o.kind, v with
  | .byte, .int n => if 0 ≤ n ∧ n < 256 then some [n.toNat] else none
  | .short, .int n => if 0 ≤ n ∧ n < 65536 then some (be16 n.toNat) else none
  | .int, .int n => if 0 ≤ n ∧ n < 4294967296 then some (be32 n.toNat) else none
  | .ipaddr, .ip q =>
      if q.a < 256 ∧ q.b < 256 ∧ q.c < 256 ∧ q.d < 256 then
        some [q.a, q.b, q.c, q.d]
      else none
  | .ipList, .ipList l => packIpList l
  | .raw, .str s => some s
  | .byteList, .byteList l => packByteList l
  | _, _ => none

/-- `OptionDef.unpack`: parse an option payload per the option's subclass. -/
def OptionDef.unpack (o : OptionDef) (bytes : List Nat) : Option Value :=
  match o.kind with
  | .byte => if bytes.length = 1 then some (.int (beVal bytes)) else none
  | .short => if bytes.length = 2 then some (.int (beVal bytes)) else none
  | .int => if bytes.length = 4 then some (.int (beVal bytes)) else none
  | .ipaddr =>
      match bytes with
      | [a, b, c, d] => some (.ip ⟨a, b, c, d⟩)
      | _ => none
  | .ipList =>
      match unpackIpList bytes with
      | none => none
      | some l => some (Value.ipList l)
  | .raw => some (.str bytes)
  | .byteList => some (.byteList (bytes.map Int.ofNat))

/-! ## Association lists (the Python dictionaries) -/

/-- Dictionary lookup (`dict.get`). -/
def alGet {α β : Type} [DecidableEq α] : List (α × β) → α → Option β
  | [], _ => none
  | (k, v) :: rest, k' => if k = k' then some v else alGet rest k'

/-- Dictionary assignment (`dict[k] = v`). -/
def alSet {α β : Type} [DecidableEq α] : List (α × β) → α → β → List (α × β)
  | [], k, v => [(k, v)]
  | (k0, v0) :: rest, k, v =>
      if k0 = k then (k, v) :: rest else (k0, v0) :: alSet rest k v

/-! ## The packet model -/

/-- The in-memory packet: the `_fields` and `_options` dictionaries. -/
structure DhcpPacket where
  fields : List (Field × Value)
  options : List (OptionDef × Value)
deriving DecidableEq, Repr

/-- `DhcpPacket()` with no byte string: both dictionaries empty. -/
def DhcpPacket.empty : DhcpPacket := ⟨[], []⟩

def DhcpPacket.get_field (p : DhcpPacket) (f : Field) : Option Value :=
  alGet p.fields f

def DhcpPacket.get_option (p : DhcpPacket) (o : OptionDef) : Option Value :=
  alGet p.options o

def DhcpPacket.set_field (p : DhcpPacket) (f : Field) (v : Value) : DhcpPacket :=
  { p with fields := alSet p.fields f v }

def DhcpPacket.set_option (p : DhcpPacket) (o : OptionDef) (v : Value) : DhcpPacket :=
  { p with options := alSet p.options o v }

/-- `is_valid`: every mandatory field present, and the magic-cookie field
equal to the constant `0x63825363`. -/
def DhcpPacket.is_valid (p : DhcpPacket) : Bool :=
  DHCP_PACKET_FIELDS.all (fun f => (alGet p.fields f).isSome) &&
    decide (alGet p.fields FIELD_MAGIC_COOKIE =
      some (Value.int FIELD_VALUE_MAGIC_COOKIE))

/-- The `message_type` accessor: `_options.get(OPTION_DHCP_MESSAGE_TYPE,
OPTION_VALUE_DHCP_MESSAGE_TYPE_UNKNOWN)`. -/
def DhcpPacket.message_type (p : DhcpPacket) : Value :=
  (alGet p.options OPTION_DHCP_MESSAGE_TYPE).getD
    (Value.int OPTION_VALUE_DHCP_MESSAGE_TYPE_UNKNOWN)

/-- The `transaction_id` accessor. -/
def DhcpPacket.transaction_id (p : DhcpPacket) : Option Value :=
  alGet p.fields FIELD_TRANSACTION_ID

/-- The `client_hw_address` accessor. -/
def DhcpPacket.client_hw_address (p : DhcpPacket) : Option Value :=
  alGet p.fields FIELD_CLIENT_HWADDR

/-! ## Encoder (`to_binary_string`) -/

/-- The field-serializing loop of `to_binary_string`: walk `fields`,
zero-padding the gap between the running write offset and each field's
declared offset, appending each field's packed bytes and advancing the
offset by the field's declared size.  A missing dictionary entry
(`self._fields[field]` `KeyError`) or a `pack` fault is `.error`. -/
def packFields : List Field → List (Field × Value) → Nat →
    Except Unit (List Nat × Nat)
  | [], _, offset => .ok ([], offset)
  | f :: rest, m, offset =>
      match alGet m f with
      | none => .error ()
      | some v =>
          match f.pack v with
          | none => .error ()
          | some field_data =>
              match packFields rest m (max offset f.offset + f.size) with
              | .error e => .error e
              | .ok (restBytes, finalOffset) =>
                  .ok (List.replicate (f.offset - offset) 0 ++
                        field_data ++ restBytes, finalOffset)

/-- The option-serializing loop of `to_binary_string`: walk the option
catalog in its fixed order, skipping absent options; for a present option
emit tag byte, length byte (`struct.pack("BB", ...)` demands both below
256) and the packed payload. -/
def packOptions : List OptionDef → List (OptionDef × Value) → Nat →
    Except Unit (List Nat × Nat)
  | [], _, offset => .ok ([], offset)
  | o :: rest, m, offset =>
      match alGet m o with
      | none => packOptions rest m offset
      | some v =>
          match o.pack v with
          | none => .error ()
          | some seriallized_value =>
              if o.number < 256 ∧ seriallized_value.length < 256 then
                match packOptions rest m (offset + 2 + seriallized_value.length) with
                | .error e => .error e
                | .ok (restBytes, finalOffset) =>
                    .ok (o.number :: seriallized_value.length ::
                          seriallized_value ++ restBytes, finalOffset)
              else .error ()

/-- `to_binary_string`: `.ok none` when `is_valid` is false; otherwise the
fixed fields, the present options in catalog order, the end marker, and
zero padding up to `DHCP_MIN_PACKET_SIZE`. -/
def DhcpPacket.to_binary_string (p : DhcpPacket) :
    Except Unit (Option (List Nat)) :=
  if p.is_valid = false then .ok none
  else
    match packFields DHCP_PACKET_FIELDS p.fields 0 with
    | .error e => .error e
    | .ok (fieldBytes, offset1) =>
        match packOptions DHCP_PACKET_OPTIONS p.options offset1 with
        | .error e => .error e
        | .ok (optionBytes, offset2) =>
            .ok (some (fieldBytes ++ optionBytes ++ [OPTION_END] ++
              List.replicate (DHCP_MIN_PACKET_SIZE - (offset2 + 1)) OPTION_PAD))

/-! ## Decoder (`DhcpPacket.__init__` with a byte string) -/

/-- The Python slice `bs[start : start + len]` (clamping, never raising). -/
def pySlice (bs : List Nat) (start len : Nat) : List Nat :=
  (bs.drop start).take len

/-- The field-decoding loop of `__init__`: slice and unpack each catalog
field.  An unpack fault (impossible for buffers of length at least 241)
is `none`. -/
def unpackFields : List Field → List Nat → Option (List (Field × Value))
  | [], _ => some []
  | f :: rest, bs =>
      match f.unpack (pySlice bs f.offset f.size) with
      | none => none
      | some v =>
          match unpackFields rest bs with
          | none => none
          | some tail => some ((f, v) :: tail)

/-- The option-parsing loop of `__init__`, with the absolute read offset
of the source: stop at the end marker or when the buffer is exhausted;
skip pad bytes; otherwise read tag, length and payload, discarding
unknown tags and storing known ones (`.error` models the `IndexError`
when the length byte is past the end, and `unpack` raising). -/
def parseOptions (bs : List Nat) (offset : Nat)
    (acc : List (OptionDef × Value)) : Except Unit (List (OptionDef × Value)) :=
  if _h : offset < bs.length then
    if bs.getD offset 0 = OPTION_END then .ok acc
    else
      let data_type := bs.getD offset 0
      if data_type = OPTION_PAD then parseOptions bs (offset + 1) acc
      else if offset + 1 < bs.length then
        let data_length := bs.getD (offset + 1) 0
        let data := pySlice bs (offset + 2) data_length
        match get_dhcp_option_by_number data_type with
        | none => parseOptions bs (offset + 2 + data_length) acc
        | some o =>
            match o.unpack data with
            | none => .error ()
            | some v => parseOptions bs (offset + 2 + data_length) (alSet acc o v)
      else .error ()
  else .ok acc
termination_by bs.length - offset
decreasing_by all_goals omega

/-- `DhcpPacket(byte_str)`: reject buffers shorter than 241 bytes with an
empty packet, else decode the 13 fields and parse the options region. -/
def DhcpPacket.ofBytes (bs : List Nat) : Except Unit DhcpPacket :=
  if bs.length < OPTIONS_START_OFFSET + 1 then .ok ⟨[], []⟩
  else
    match unpackFields DHCP_PACKET_FIELDS bs with
    | none => .error ()
    | some fields =>
        match parseOptions bs OPTIONS_START_OFFSET [] with
        | .error e => .error e
        | .ok options => .ok ⟨fields, options⟩

/-! ## Factory constructors -/

/-- `create_discovery_packet`.  The call `random.getrandbits(32)` is
modelled by the explicit argument `random_bits`. -/
def DhcpPacket.create_discovery_packet (random_bits : Int)
    (hwmac_addr : List Nat) : DhcpPacket :=
  let padded := hwmac_addr ++ List.replicate (12 - hwmac_addr.length) OPTION_PAD
  (((((((((((((DhcpPacket.empty.set_field FIELD_OP
    (.int FIELD_VALUE_OP_CLIENT_REQUEST)).set_field FIELD_HWTYPE
    (.int FIELD_VALUE_HWTYPE_10MB_ETH)).set_field FIELD_HWADDR_LEN
    (.int FIELD_VALUE_HWADDR_LEN_10MB_ETH)).set_field FIELD_RELAY_HOPS
    (.int 0)).set_field FIELD_TRANSACTION_ID
    (.int random_bits)).set_field FIELD_TIME_SINCE_START
    (.int 0)).set_field FIELD_FLAGS
    (.int 0)).set_field FIELD_CLIENT_IP
    (.ip IPV4_NULL_ADDRESS)).set_field FIELD_YOUR_IP
    (.ip IPV4_NULL_ADDRESS)).set_field FIELD_SERVER_IP
    (.ip IPV4_NULL_ADDRESS)).set_field FIELD_GATEWAY_IP
    (.ip IPV4_NULL_ADDRESS)).set_field FIELD_CLIENT_HWADDR
    (.str padded)).set_field FIELD_MAGIC_COOKIE
    (.int FIELD_VALUE_MAGIC_COOKIE)).set_option OPTION_DHCP_MESSAGE_TYPE
    (.int OPTION_VALUE_DHCP_MESSAGE_TYPE_DISCOVERY)

/-! ## The option loop as an explicit small-step system (for the
termination analysis) -/

/-- The state of the option-parsing loop: the read offset and the options
dictionary, or a terminal state (loop exited normally / exception). -/
inductive ParseState where
  | running (offset : Nat) (acc : List (OptionDef × Value))
  | finished (acc : List (OptionDef × Value))
  | failed
deriving DecidableEq, Repr

/-- One iteration of the option-parsing loop; terminal states are fixed. -/
def parseStep (bs : List Nat) : ParseState → ParseState
  | .running offset acc =>
      if offset < bs.length then
        if bs.getD offset 0 = OPTION_END then .finished acc
        else
          let data_type := bs.getD offset 0
          if data_type = OPTION_PAD then .running (offset + 1) acc
          else if offset + 1 < bs.length then
            let data_length := bs.getD (offset + 1) 0
            let data := pySlice bs (offset + 2) data_length
            match get_dhcp_option_by_number data_type with
            | none => .running (offset + 2 + data_length) acc
            | some o =>
                match o.unpack data with
                | none => .failed
                | some v => .running (offset + 2 + data_length) (alSet acc o v)
          else .failed
      else .finished acc
  | .finished acc => .finished acc
  | .failed => .failed

/-- Whether the loop has exited. -/
def ParseState.isTerminal : ParseState → Bool
  | .running _ _ => false
  | .finished _ => true
  | .failed => true

/-- The offset at which an option record with the given tag starts, found
by walking the option records of a buffer the way the decoder does. -/
def findTagPos : List Nat → Nat → Nat → Option Nat
  | [], _, _ => none
  | t :: rest, tag, pos =>
      if t = OPTION_END then none
      else if t = OPTION_PAD then findTagPos rest tag (pos + 1)
      else if t = tag then some pos
      else
        match rest with
        | [] => none
        | len :: rest2 => findTagPos (rest2.drop len) tag (pos + 2 + len)
termination_by l _ _ => l.length
decreasing_by
  all_goals simp [List.length_drop]
  all_goals omega

/-! ## Helper lemmas: slices, association lists -/

theorem pySlice_zero (mid post : List Nat) (k : Nat) (hk : mid.length = k) :
    pySlice (mid ++ post) 0 k = mid := by
  simp only [pySlice, List.drop_zero, ← hk, List.take_left]

theorem pySlice_append_skip (a rest : List Nat) (m k : Nat) :
    pySlice (a ++ rest) (a.length + m) k = pySlice rest m k := by
  simp only [pySlice, List.drop_append]

theorem getD_append_skip (a rest : List Nat) (m d : Nat) :
    (a ++ rest).getD (a.length + m) d = rest.getD m d := by
  rw [List.getD_append_right a rest d _ (by omega)]
  congr 1
  omega

theorem alGet_alSet_self {α β : Type} [DecidableEq α]
    (l : List (α × β)) (k : α) (v : β) : alGet (alSet l k v) k = some v := by
  induction l with
  | nil => simp [alGet, alSet]
  | cons hd tl ih =>
      obtain ⟨k0, v0⟩ := hd
      by_cases hk : k0 = k
      · subst hk
        simp [alGet, alSet]
      · simp only [alSet, if_neg hk, alGet, ih, if_neg hk]

theorem alGet_alSet_ne {α β : Type} [DecidableEq α]
    (l : List (α × β)) (k x : α) (v : β) (hne : k ≠ x) :
    alGet (alSet l k v) x = alGet l x := by
  induction l with
  | nil => simp [alGet, alSet, if_neg hne]
  | cons hd tl ih =>
      obtain ⟨k0, v0⟩ := hd
      by_cases hk : k0 = k
      · subst hk
        simp only [alSet, if_pos rfl, alGet, if_neg hne]
      · simp only [alSet, if_neg hk, alGet, ih]

/-! ## Pack output lengths and pack/unpack round trips -/

/-- The number of bytes every successful pack of a given field kind
produces. -/
def FieldKind.packSize : FieldKind → Nat
  | .byte => 1
  | .short => 2
  | .int => 4
  | .hwaddr => 16
  | .ipaddr => 4

theorem Field.pack_length {f : Field} {v : Value} {d : List Nat}
    (h : f.pack v = some d) : d.length = f.kind.packSize := by
  cases hk : f.kind <;> cases v <;> simp only [Field.pack, hk] at h <;>
      try exact Option.noConfusion h
  case byte.int n =>
    split at h
    · cases h; rfl
    · simp at h
  case short.int n =>
    split at h
    · cases h; rfl
    · simp at h
  case int.int n =>
    split at h
    · cases h; rfl
    · simp at h
  case hwaddr.str s =>
    cases h
    simp only [FieldKind.packSize, List.length_append, List.length_take,
      List.length_replicate]
    omega
  case ipaddr.ip q =>
    split at h
    · cases h; rfl
    · simp at h

/-- Round trip for every field kind except the hardware address. -/
theorem Field.unpack_pack {f : Field} {v : Value} {d : List Nat}
    (h : f.pack v = some d) (hk : f.kind ≠ FieldKind.hwaddr) :
    f.unpack d = some v := by
  cases hkind : f.kind <;> cases v <;> simp only [Field.pack, hkind] at h <;>
      try exact Option.noConfusion h
  case byte.int n =>
    split at h
    case isTrue hn =>
      cases h
      simp only [Field.unpack, hkind, List.length_cons, List.length_nil,
        beVal, List.foldl, if_pos]
      have : ((n.toNat : Int)) = n := by omega
      simp [this]
    case isFalse => simp at h
  case short.int n =>
    split at h
    case isTrue hn =>
      cases h
      simp only [Field.unpack, hkind, be16, beVal, List.length_cons,
        List.length_nil, List.foldl, if_pos]
      have heq : (((0 * 256 + n.toNat / 256) * 256 + n.toNat % 256 : Nat) : Int) = n := by
        omega
      rw [heq]
    case isFalse => simp at h
  case int.int n =>
    split at h
    case isTrue hn =>
      cases h
      simp only [Field.unpack, hkind, be32, beVal, List.length_cons,
        List.length_nil, List.foldl, if_pos]
      have : ((((0 * 256 + n.toNat / 16777216) * 256 + n.toNat / 65536 % 256) * 256 +
          n.toNat / 256 % 256) * 256 + n.toNat % 256 : Nat) = n.toNat := by
        omega
      rw [this]
      have h2 : ((n.toNat : Int)) = n := by omega
      simp [h2]
    case isFalse => simp at h
  case hwaddr.str s => exact absurd hkind hk
  case ipaddr.ip q =>
    split at h
    case isTrue hn =>
      cases h
      simp [Field.unpack, hkind]
    case isFalse => simp at h

/-- The hardware-address round trip: exact only when the stored value is
exactly 16 bytes long (`struct.pack("!16s", ·)` pads or truncates). -/
theorem Field.unpack_pack_hwaddr {f : Field} {s d : List Nat}
    (hkind : f.kind = FieldKind.hwaddr) (h : f.pack (.str s) = some d)
    (hlen : s.length = 16) : f.unpack d = some (.str s) := by
  simp only [Field.pack, hkind] at h
  cases h
  simp [Field.unpack, hkind, List.take_of_length_le (le_of_eq hlen), hlen]

theorem unpackIpList_packIpList {l : List IpAddr} {d : List Nat}
    (h : packIpList l = some d) : unpackIpList d = some l := by
  induction l generalizing d with
  | nil =>
      simp only [packIpList] at h
      cases h
      rfl
  | cons q rest ih =>
      simp only [packIpList] at h
      split at h
      case isTrue hq =>
        cases hr : packIpList rest with
        | none => rw [hr] at h; exact Option.noConfusion h
        | some dr =>
            rw [hr] at h
            cases h
            simp [unpackIpList, ih hr]
      case isFalse => exact Option.noConfusion h

theorem packByteList_map {l : List Int} {d : List Nat}
    (h : packByteList l = some d) : d.map Int.ofNat = l := by
  induction l generalizing d with
  | nil =>
      simp only [packByteList] at h
      cases h
      rfl
  | cons v rest ih =>
      simp only [packByteList] at h
      split at h
      case isTrue hv =>
        cases hr : packByteList rest with
        | none => rw [hr] at h; exact Option.noConfusion h
        | some dr =>
            rw [hr] at h
            cases h
            simp only [List.map_cons, ih hr, List.cons.injEq, and_true]
            exact Int.toNat_of_nonneg hv.1
      case isFalse => exact Option.noConfusion h

/-- Round trip for every option kind: a successfully packed option value
is recovered exactly by `unpack`. -/
theorem OptionDef.unpack_pack_option {o : OptionDef} {v : Value} {d : List Nat}
    (h : o.pack v = some d) : o.unpack d = some v := by
  cases hkind : o.kind <;> cases v <;> simp only [OptionDef.pack, hkind] at h <;>
      try exact Option.noConfusion h
  case byte.int n =>
    split at h
    case isTrue hn =>
      cases h
      simp only [OptionDef.unpack, hkind, List.length_cons, List.length_nil,
        beVal, List.foldl, if_pos]
      have : ((n.toNat : Int)) = n := by omega
      simp [this]
    case isFalse => simp at h
  case short.int n =>
    split at h
    case isTrue hn =>
      cases h
      simp only [OptionDef.unpack, hkind, be16, beVal, List.length_cons,
        List.length_nil, List.foldl, if_pos]
      have heq : (((0 * 256 + n.toNat / 256) * 256 + n.toNat % 256 : Nat) : Int) = n := by
        omega
      rw [heq]
    case isFalse => simp at h
  case int.int n =>
    split at h
    case isTrue hn =>
      cases h
      simp only [OptionDef.unpack, hkind, be32, beVal, List.length_cons,
        List.length_nil, List.foldl, if_pos]
      have : ((((0 * 256 + n.toNat / 16777216) * 256 + n.toNat / 65536 % 256) * 256 +
          n.toNat / 256 % 256) * 256 + n.toNat % 256 : Nat) = n.toNat := by
        omega
      rw [this]
      have h2 : ((n.toNat : Int)) = n := by omega
      simp [h2]
    case isFalse => simp at h
  case ipaddr.ip q =>
    split at h
    case isTrue hn =>
      cases h
      simp [OptionDef.unpack, hkind]
    case isFalse => simp at h
  case ipList.ipList l =>
    simp [OptionDef.unpack, hkind, unpackIpList_packIpList h]
  case raw.str s =>
    cases h
    simp [OptionDef.unpack, hkind]
  case byteList.byteList l =>
    simp [OptionDef.unpack, hkind, packByteList_map h]

/-! ## Inversion lemmas for the encoder -/

theorem packFields_cons_inv {f : Field} {rest : List Field}
    {m : List (Field × Value)} {offset : Nat} {bytes : List Nat} {off' : Nat}
    (h : packFields (f :: rest) m offset = .ok (bytes, off')) :
    ∃ v d restB, alGet m f = some v ∧ f.pack v = some d ∧
      packFields rest m (max offset f.offset + f.size) = .ok (restB, off') ∧
      bytes = List.replicate (f.offset - offset) 0 ++ d ++ restB := by
  simp only [packFields] at h
  cases hg : alGet m f with
  | none =>
      rw [hg] at h
      exact Except.noConfusion h
  | some v =>
      rw [hg] at h
      dsimp only at h
      cases hp : f.pack v with
      | none =>
          rw [hp] at h
          exact Except.noConfusion h
      | some d =>
          rw [hp] at h
          dsimp only at h
          cases hr : packFields rest m (max offset f.offset + f.size) with
          | error e =>
              rw [hr] at h
              exact Except.noConfusion h
          | ok pr =>
              obtain ⟨restB, fo⟩ := pr
              rw [hr] at h
              dsimp only at h
              cases h
              exact ⟨v, d, restB, rfl, hp, rfl, rfl⟩

theorem packFields_nil_inv {m : List (Field × Value)} {offset : Nat}
    {bytes : List Nat} {off' : Nat}
    (h : packFields [] m offset = .ok (bytes, off')) :
    bytes = [] ∧ off' = offset := by
  simp only [packFields] at h
  cases h
  exact ⟨rfl, rfl⟩

theorem packOptions_nil_inv {m : List (OptionDef × Value)} {offset : Nat}
    {bytes : List Nat} {off' : Nat}
    (h : packOptions [] m offset = .ok (bytes, off')) :
    bytes = [] ∧ off' = offset := by
  simp only [packOptions] at h
  cases h
  exact ⟨rfl, rfl⟩

theorem packOptions_cons_inv {o : OptionDef} {rest : List OptionDef}
    {m : List (OptionDef × Value)} {offset : Nat} {bytes : List Nat} {off' : Nat}
    (h : packOptions (o :: rest) m offset = .ok (bytes, off')) :
    (alGet m o = none ∧ packOptions rest m offset = .ok (bytes, off')) ∨
    (∃ v d restB, alGet m o = some v ∧ o.pack v = some d ∧
      o.number < 256 ∧ d.length < 256 ∧
      packOptions rest m (offset + 2 + d.length) = .ok (restB, off') ∧
      bytes = o.number :: d.length :: d ++ restB) := by
  simp only [packOptions] at h
  cases hg : alGet m o with
  | none =>
      rw [hg] at h
      dsimp only at h
      exact Or.inl ⟨rfl, h⟩
  | some v =>
      rw [hg] at h
      dsimp only at h
      cases hp : o.pack v with
      | none =>
          rw [hp] at h
          exact Except.noConfusion h
      | some d =>
          rw [hp] at h
          dsimp only at h
          split at h
          case isTrue hb =>
            cases hr : packOptions rest m (offset + 2 + d.length) with
            | error e =>
                rw [hr] at h
                exact Except.noConfusion h
            | ok pr =>
                obtain ⟨restB, fo⟩ := pr
                rw [hr] at h
                dsimp only at h
                cases h
                exact Or.inr ⟨v, d, restB, rfl, hp, hb.1, hb.2, hr, rfl⟩
          case isFalse => exact Except.noConfusion h

/-! ## The write offset tracks the number of emitted bytes -/

theorem packFields_offset {fs : List Field} {m : List (Field × Value)}
    {off : Nat} {bytes : List Nat} {off' : Nat}
    (hsz : ∀ f ∈ fs, f.size = f.kind.packSize)
    (h : packFields fs m off = .ok (bytes, off')) :
    off' = off + bytes.length := by
  induction fs generalizing off bytes with
  | nil =>
      obtain ⟨hb, ho⟩ := packFields_nil_inv h
      subst hb
      subst ho
      simp
  | cons f rest ih =>
      obtain ⟨v, d, restB, hg, hp, hrec, hb⟩ := packFields_cons_inv h
      have hd : d.length = f.kind.packSize := Field.pack_length hp
      have hfs : f.size = f.kind.packSize := hsz f (by simp)
      have := ih (fun g hg => hsz g (by simp [hg])) hrec
      subst hb
      simp only [List.length_append, List.length_replicate]
      omega

theorem packOptions_offset {os : List OptionDef} {m : List (OptionDef × Value)}
    {off : Nat} {bytes : List Nat} {off' : Nat}
    (h : packOptions os m off = .ok (bytes, off')) :
    off' = off + bytes.length := by
  induction os generalizing off bytes with
  | nil =>
      obtain ⟨hb, ho⟩ := packOptions_nil_inv h
      subst hb
      subst ho
      simp
  | cons o rest ih =>
      rcases packOptions_cons_inv h with ⟨hg, hrec⟩ | ⟨v, d, restB, hg, hp, hn, hl, hrec, hb⟩
      · exact ih hrec
      · have := ih hrec
        subst hb
        simp only [List.length_cons, List.length_append]
        omega

/-! ## Inversion of `to_binary_string` -/

theorem to_binary_string_inv {p : DhcpPacket} {bs : List Nat}
    (h : p.to_binary_string = .ok (some bs)) :
    p.is_valid = true ∧
    ∃ fieldBytes offset1 optionBytes offset2,
      packFields DHCP_PACKET_FIELDS p.fields 0 = .ok (fieldBytes, offset1) ∧
      packOptions DHCP_PACKET_OPTIONS p.options offset1 = .ok (optionBytes, offset2) ∧
      bs = fieldBytes ++ optionBytes ++ [OPTION_END] ++
        List.replicate (DHCP_MIN_PACKET_SIZE - (offset2 + 1)) OPTION_PAD := by
  rw [DhcpPacket.to_binary_string] at h
  split at h
  case isTrue hv => cases h
  case isFalse hv =>
    refine ⟨by revert hv; cases p.is_valid <;> simp, ?_⟩
    cases hf : packFields DHCP_PACKET_FIELDS p.fields 0 with
    | error e =>
        rw [hf] at h
        exact Except.noConfusion h
    | ok pr =>
        obtain ⟨fieldBytes, offset1⟩ := pr
        rw [hf] at h
        dsimp only at h
        cases ho : packOptions DHCP_PACKET_OPTIONS p.options offset1 with
        | error e =>
            rw [ho] at h
            exact Except.noConfusion h
        | ok pr2 =>
            obtain ⟨optionBytes, offset2⟩ := pr2
            rw [ho] at h
            dsimp only at h
            cases h
            exact ⟨fieldBytes, offset1, optionBytes, offset2, rfl, ho, rfl⟩

/-! ## The header structure of an encoded packet -/

theorem packFields_header {m : List (Field × Value)} {fb : List Nat} {off1 : Nat}
    (h : packFields DHCP_PACKET_FIELDS m 0 = .ok (fb, off1)) :
    ∃ v1 v2 v3 v4 v5 v6 v7 v8 v9 v10 v11 v12 v13 d1 d2 d3 d4 d5 d6 d7 d8 d9 d10 d11 d12 d13,
      alGet m FIELD_OP = some v1 ∧ FIELD_OP.pack v1 = some d1 ∧
      alGet m FIELD_HWTYPE = some v2 ∧ FIELD_HWTYPE.pack v2 = some d2 ∧
      alGet m FIELD_HWADDR_LEN = some v3 ∧ FIELD_HWADDR_LEN.pack v3 = some d3 ∧
      alGet m FIELD_RELAY_HOPS = some v4 ∧ FIELD_RELAY_HOPS.pack v4 = some d4 ∧
      alGet m FIELD_TRANSACTION_ID = some v5 ∧ FIELD_TRANSACTION_ID.pack v5 = some d5 ∧
      alGet m FIELD_TIME_SINCE_START = some v6 ∧ FIELD_TIME_SINCE_START.pack v6 = some d6 ∧
      alGet m FIELD_FLAGS = some v7 ∧ FIELD_FLAGS.pack v7 = some d7 ∧
      alGet m FIELD_CLIENT_IP = some v8 ∧ FIELD_CLIENT_IP.pack v8 = some d8 ∧
      alGet m FIELD_YOUR_IP = some v9 ∧ FIELD_YOUR_IP.pack v9 = some d9 ∧
      alGet m FIELD_SERVER_IP = some v10 ∧ FIELD_SERVER_IP.pack v10 = some d10 ∧
      alGet m FIELD_GATEWAY_IP = some v11 ∧ FIELD_GATEWAY_IP.pack v11 = some d11 ∧
      alGet m FIELD_CLIENT_HWADDR = some v12 ∧ FIELD_CLIENT_HWADDR.pack v12 = some d12 ∧
      alGet m FIELD_MAGIC_COOKIE = some v13 ∧ FIELD_MAGIC_COOKIE.pack v13 = some d13 ∧
      fb = d1 ++ (d2 ++ (d3 ++ (d4 ++ (d5 ++ (d6 ++ (d7 ++ (d8 ++ (d9 ++ (d10 ++ (d11 ++ (d12 ++ (List.replicate 192 0 ++ (d13 ++ []))))))))))))) ∧
      off1 = 240 := by
  simp only [DHCP_PACKET_FIELDS] at h
  obtain ⟨v1, d1, r1, hg1, hp1, h, hb1⟩ := packFields_cons_inv h
  obtain ⟨v2, d2, r2, hg2, hp2, h, hb2⟩ := packFields_cons_inv h
  obtain ⟨v3, d3, r3, hg3, hp3, h, hb3⟩ := packFields_cons_inv h
  obtain ⟨v4, d4, r4, hg4, hp4, h, hb4⟩ := packFields_cons_inv h
  obtain ⟨v5, d5, r5, hg5, hp5, h, hb5⟩ := packFields_cons_inv h
  obtain ⟨v6, d6, r6, hg6, hp6, h, hb6⟩ := packFields_cons_inv h
  obtain ⟨v7, d7, r7, hg7, hp7, h, hb7⟩ := packFields_cons_inv h
  obtain ⟨v8, d8, r8, hg8, hp8, h, hb8⟩ := packFields_cons_inv h
  obtain ⟨v9, d9, r9, hg9, hp9, h, hb9⟩ := packFields_cons_inv h
  obtain ⟨v10, d10, r10, hg10, hp10, h, hb10⟩ := packFields_cons_inv h
  obtain ⟨v11, d11, r11, hg11, hp11, h, hb11⟩ := packFields_cons_inv h
  obtain ⟨v12, d12, r12, hg12, hp12, h, hb12⟩ := packFields_cons_inv h
  obtain ⟨v13, d13, r13, hg13, hp13, h, hb13⟩ := packFields_cons_inv h
  obtain ⟨hr13, hoff⟩ := packFields_nil_inv h
  subst hr13
  subst hb1
  subst hb2
  subst hb3
  subst hb4
  subst hb5
  subst hb6
  subst hb7
  subst hb8
  subst hb9
  subst hb10
  subst hb11
  subst hb12
  subst hb13
  refine ⟨v1, v2, v3, v4, v5, v6, v7, v8, v9, v10, v11, v12, v13, d1, d2, d3, d4, d5, d6, d7, d8, d9, d10, d11, d12, d13, hg1, hp1, hg2, hp2, hg3, hp3, hg4, hp4, hg5, hp5, hg6, hp6, hg7, hp7, hg8, hp8, hg9, hp9, hg10, hp10, hg11, hp11, hg12, hp12, hg13, hp13, ?_, ?_⟩
  · norm_num [FIELD_OP, FIELD_HWTYPE, FIELD_HWADDR_LEN, FIELD_RELAY_HOPS, FIELD_TRANSACTION_ID, FIELD_TIME_SINCE_START, FIELD_FLAGS, FIELD_CLIENT_IP, FIELD_YOUR_IP, FIELD_SERVER_IP, FIELD_GATEWAY_IP, FIELD_CLIENT_HWADDR, FIELD_MAGIC_COOKIE]
  · rw [hoff]
    norm_num [FIELD_OP, FIELD_HWTYPE, FIELD_HWADDR_LEN, FIELD_RELAY_HOPS, FIELD_TRANSACTION_ID, FIELD_TIME_SINCE_START, FIELD_FLAGS, FIELD_CLIENT_IP, FIELD_YOUR_IP, FIELD_SERVER_IP, FIELD_GATEWAY_IP, FIELD_CLIENT_HWADDR, FIELD_MAGIC_COOKIE]


/-! ## Small-step analysis of the option-parsing loop -/

theorem parseStep_running_offset {bs : List Nat} {offset : Nat}
    {acc acc' : List (OptionDef × Value)} {offset' : Nat}
    (h : parseStep bs (.running offset acc) = .running offset' acc') :
    offset < bs.length ∧
    ((bs.getD offset 0 = OPTION_PAD ∧ offset' = offset + 1) ∨
     (bs.getD offset 0 ≠ OPTION_PAD ∧
       offset' = offset + 2 + bs.getD (offset + 1) 0)) := by
  rw [parseStep] at h
  dsimp only at h
  by_cases hlt : offset < bs.length
  case neg =>
    rw [if_neg hlt] at h
    exact ParseState.noConfusion h
  case pos =>
    rw [if_pos hlt] at h
    by_cases h255 : bs.getD offset 0 = OPTION_END
    · rw [if_pos h255] at h
      exact ParseState.noConfusion h
    · rw [if_neg h255] at h
      by_cases hpad : bs.getD offset 0 = OPTION_PAD
      · rw [if_pos hpad] at h
        cases h
        exact ⟨hlt, Or.inl ⟨hpad, rfl⟩⟩
      · rw [if_neg hpad] at h
        by_cases hlen : offset + 1 < bs.length
        · rw [if_pos hlen] at h
          cases hopt : get_dhcp_option_by_number (bs.getD offset 0) with
          | none =>
              rw [hopt] at h
              dsimp only at h
              cases h
              exact ⟨hlt, Or.inr ⟨hpad, rfl⟩⟩
          | some o =>
              rw [hopt] at h
              dsimp only at h
              cases hu : o.unpack (pySlice bs (offset + 2) (bs.getD (offset + 1) 0)) with
              | none =>
                  rw [hu] at h
                  exact ParseState.noConfusion h
              | some v =>
                  rw [hu] at h
                  dsimp only at h
                  cases h
                  exact ⟨hlt, Or.inr ⟨hpad, rfl⟩⟩
        · rw [if_neg hlen] at h
          exact ParseState.noConfusion h

theorem parseStep_iterate_terminal (bs : List Nat) :
    ∀ (n offset : Nat) (acc : List (OptionDef × Value)), bs.length - offset < n →
      (((parseStep bs)^[n]) (.running offset acc)).isTerminal = true := by
  intro n
  induction n with
  | zero => intro offset acc h; omega
  | succ k ih =>
      intro offset acc h
      rw [Function.iterate_succ_apply]
      cases hs : parseStep bs (.running offset acc) with
      | running offset' acc' =>
          obtain ⟨hlt, hcase⟩ := parseStep_running_offset hs
          apply ih
          rcases hcase with ⟨_, rfl⟩ | ⟨_, rfl⟩ <;> omega
      | finished acc' =>
          rw [Function.iterate_fixed rfl]
          rfl
      | failed =>
          rw [Function.iterate_fixed rfl]
          rfl

/-- C10: the option-parsing loop terminates on every finite buffer: an
iteration that stays in the loop advances the read offset by exactly 1
on a pad byte and by 2 plus the announced payload length otherwise, so
the offset strictly increases, and after at most `bs.length + 1`
iterations the loop state is terminal. -/
theorem parse_loop_progress_and_termination (bs : List Nat) (offset : Nat)
    (acc acc' : List (OptionDef × Value)) (offset' : Nat)
    (h : parseStep bs (.running offset acc) = .running offset' acc') :
    ((bs.getD offset 0 = OPTION_PAD ∧ offset' = offset + 1) ∨
     (bs.getD offset 0 ≠ OPTION_PAD ∧
       offset' = offset + 2 + bs.getD (offset + 1) 0)) ∧
    offset < offset' ∧
    (((parseStep bs)^[bs.length + 1]) (.running offset acc)).isTerminal = true := by
  obtain ⟨hlt, hcase⟩ := parseStep_running_offset h
  refine ⟨hcase, ?_,
    parseStep_iterate_terminal bs (bs.length + 1) offset acc (by omega)⟩
  rcases hcase with ⟨_, rfl⟩ | ⟨_, rfl⟩ <;> omega

/-- Witness for C10 at the concrete buffer `[99, 1, 7, 255]` (an unknown
tag 99 with a 1-byte payload, then the end marker). -/
theorem parse_loop_progress_and_termination_witness :
    ((([99, 1, 7, 255] : List Nat).getD 0 0 = OPTION_PAD ∧ 3 = 0 + 1) ∨
     (([99, 1, 7, 255] : List Nat).getD 0 0 ≠ OPTION_PAD ∧
       3 = 0 + 2 + ([99, 1, 7, 255] : List Nat).getD (0 + 1) 0)) ∧
    0 < 3 ∧
    (((parseStep [99, 1, 7, 255])^[([99, 1, 7, 255] : List Nat).length + 1])
      (.running 0 [])).isTerminal = true :=
  parse_loop_progress_and_termination [99, 1, 7, 255] 0 [] [] 3 (by rfl)

/-! ## Encoding refusal (C3) -/

/-- C3: `to_binary_string` returns the absent sentinel (Python `None`,
no byte output) exactly when the packet fails `is_valid`. -/
theorem to_binary_string_none_iff_invalid (p : DhcpPacket) :
    p.to_binary_string = .ok none ↔ p.is_valid = false := by
  rw [DhcpPacket.to_binary_string]
  split
  case isTrue hv => simp [hv]
  case isFalse hv =>
    constructor
    · intro h
      exfalso
      cases hf : packFields DHCP_PACKET_FIELDS p.fields 0 with
      | error e =>
          rw [hf] at h
          exact Except.noConfusion h
      | ok pr =>
          obtain ⟨fb, o1⟩ := pr
          rw [hf] at h
          dsimp only at h
          cases ho : packOptions DHCP_PACKET_OPTIONS p.options o1 with
          | error e =>
              rw [ho] at h
              exact Except.noConfusion h
          | ok pr2 =>
              obtain ⟨ob, o2⟩ := pr2
              rw [ho] at h
              dsimp only at h
              simp at h
    · intro h
      exact absurd h hv

/-! ## Minimum output length (C4) -/

/-- C4: every byte buffer produced by `to_binary_string` has length at
least `DHCP_MIN_PACKET_SIZE = 300`; the pad loop only ever adds bytes,
so longer packets are not truncated. -/
theorem to_binary_string_min_length (p : DhcpPacket) (bs : List Nat)
    (h : p.to_binary_string = .ok (some bs)) :
    DHCP_MIN_PACKET_SIZE ≤ bs.length := by
  obtain ⟨hv, fb, o1, ob, o2, hf, ho, hbs⟩ := to_binary_string_inv h
  have h1 : o1 = 0 + fb.length := packFields_offset (by decide) hf
  have h2 : o2 = o1 + ob.length := packOptions_offset ho
  subst hbs
  simp only [List.length_append, List.length_replicate, List.length_cons,
    List.length_nil, DHCP_MIN_PACKET_SIZE]
  omega

/-- A concrete valid packet used by several witnesses: the discovery
factory applied to a fixed transaction id and a 6-byte MAC address. -/
def witnessPacket : DhcpPacket :=
  DhcpPacket.create_discovery_packet 3735928559 [0, 17, 34, 51, 68, 85]

/-- The bytes of `witnessPacket`. -/
def witnessBytes : List Nat :=
  match witnessPacket.to_binary_string with
  | .ok (some bs) => bs
  | _ => []

/-- Witness for C4 at `witnessPacket`. -/
theorem to_binary_string_min_length_witness :
    DHCP_MIN_PACKET_SIZE ≤ witnessBytes.length :=
  to_binary_string_min_length witnessPacket witnessBytes (by rfl)

/-! ## Truncated-buffer decoding (C5) -/

/-- C5: decoding any buffer shorter than 241 bytes yields (without a
fault) the empty packet: both mappings empty and `is_valid` false. -/
theorem ofBytes_short_buffer (bs : List Nat) (h : bs.length < 241) :
    DhcpPacket.ofBytes bs = .ok DhcpPacket.empty ∧
    DhcpPacket.empty.fields = [] ∧ DhcpPacket.empty.options = [] ∧
    DhcpPacket.empty.is_valid = false := by
  refine ⟨?_, rfl, rfl, by decide⟩
  rw [DhcpPacket.ofBytes, if_pos (by simpa [OPTIONS_START_OFFSET] using h)]
  rfl

/-- Witness for C5 at a 100-byte zero buffer. -/
theorem ofBytes_short_buffer_witness :
    DhcpPacket.ofBytes (List.replicate 100 0) = .ok DhcpPacket.empty ∧
    DhcpPacket.empty.fields = [] ∧ DhcpPacket.empty.options = [] ∧
    DhcpPacket.empty.is_valid = false :=
  ofBytes_short_buffer (List.replicate 100 0) (by simp)

/-! ## The message-type accessor (C7) -/

/-- A packet whose message-type option holds the given integer. -/
def packetWithMessageType (n : Int) : DhcpPacket :=
  DhcpPacket.empty.set_option OPTION_DHCP_MESSAGE_TYPE (.int n)

/-- C7 counterexample: with the message-type option set to 9 (not one of
the defined values 1..8), the accessor returns 9, not the unknown
sentinel -1 as the claim states. -/
theorem message_type_nine_counterexample :
    (packetWithMessageType 9).message_type = Value.int 9 ∧
    Value.int 9 ≠ Value.int OPTION_VALUE_DHCP_MESSAGE_TYPE_UNKNOWN ∧
    (9 : Int) ∉ ([1, 2, 3, 4, 5, 6, 7, 8] : List Int) := by
  refine ⟨rfl, by decide, by decide⟩

/-- C7 amended: the accessor returns the stored message-type option value
whenever the option is present — whatever that value is — and the
explicit unknown sentinel -1 (never an absent value) when the option is
not present. -/
theorem message_type_spec (p : DhcpPacket) (v : Value) :
    (alGet p.options OPTION_DHCP_MESSAGE_TYPE = some v → p.message_type = v) ∧
    (alGet p.options OPTION_DHCP_MESSAGE_TYPE = none →
      p.message_type = Value.int OPTION_VALUE_DHCP_MESSAGE_TYPE_UNKNOWN) := by
  constructor <;> intro h <;> simp [DhcpPacket.message_type, h]

/-- Witness for C7 (amended) at concrete packets. -/
theorem message_type_spec_witness :
    (packetWithMessageType 5).message_type = Value.int 5 ∧
    DhcpPacket.empty.message_type =
      Value.int OPTION_VALUE_DHCP_MESSAGE_TYPE_UNKNOWN :=
  ⟨(message_type_spec (packetWithMessageType 5) (Value.int 5)).1 (by rfl),
   (message_type_spec DhcpPacket.empty (Value.int 5)).2 (by rfl)⟩

/-! ## The discovery factory (C9) -/

set_option maxHeartbeats 1600000 in
/-- C9: for a hardware address of at most 12 bytes, the discovery factory
fills every field as specified (op=1, htype=1, hlen=6, hops=0, secs=0,
flags=0, all IPs 0.0.0.0, the magic cookie, message-type 1) and stores
the address right-padded with zero bytes to exactly 12 bytes; the result
satisfies `is_valid`. -/
theorem create_discovery_packet_spec (random_bits : Int) (hwmac_addr : List Nat)
    (hlen : hwmac_addr.length ≤ 12) :
    (DhcpPacket.create_discovery_packet random_bits hwmac_addr).get_field FIELD_OP =
      some (Value.int FIELD_VALUE_OP_CLIENT_REQUEST) ∧
    (DhcpPacket.create_discovery_packet random_bits hwmac_addr).get_field FIELD_HWTYPE =
      some (Value.int FIELD_VALUE_HWTYPE_10MB_ETH) ∧
    (DhcpPacket.create_discovery_packet random_bits hwmac_addr).get_field FIELD_HWADDR_LEN =
      some (Value.int FIELD_VALUE_HWADDR_LEN_10MB_ETH) ∧
    (DhcpPacket.create_discovery_packet random_bits hwmac_addr).get_field FIELD_RELAY_HOPS =
      some (Value.int 0) ∧
    (DhcpPacket.create_discovery_packet random_bits hwmac_addr).get_field FIELD_TRANSACTION_ID =
      some (Value.int random_bits) ∧
    (DhcpPacket.create_discovery_packet random_bits hwmac_addr).get_field FIELD_TIME_SINCE_START =
      some (Value.int 0) ∧
    (DhcpPacket.create_discovery_packet random_bits hwmac_addr).get_field FIELD_FLAGS =
      some (Value.int 0) ∧
    (DhcpPacket.create_discovery_packet random_bits hwmac_addr).get_field FIELD_CLIENT_IP =
      some (Value.ip IPV4_NULL_ADDRESS) ∧
    (DhcpPacket.create_discovery_packet random_bits hwmac_addr).get_field FIELD_YOUR_IP =
      some (Value.ip IPV4_NULL_ADDRESS) ∧
    (DhcpPacket.create_discovery_packet random_bits hwmac_addr).get_field FIELD_SERVER_IP =
      some (Value.ip IPV4_NULL_ADDRESS) ∧
    (DhcpPacket.create_discovery_packet random_bits hwmac_addr).get_field FIELD_GATEWAY_IP =
      some (Value.ip IPV4_NULL_ADDRESS) ∧
    (DhcpPacket.create_discovery_packet random_bits hwmac_addr).get_field FIELD_MAGIC_COOKIE =
      some (Value.int FIELD_VALUE_MAGIC_COOKIE) ∧
    (DhcpPacket.create_discovery_packet random_bits hwmac_addr).get_option OPTION_DHCP_MESSAGE_TYPE =
      some (Value.int OPTION_VALUE_DHCP_MESSAGE_TYPE_DISCOVERY) ∧
    (DhcpPacket.create_discovery_packet random_bits hwmac_addr).get_field FIELD_CLIENT_HWADDR =
      some (Value.str (hwmac_addr ++ List.replicate (12 - hwmac_addr.length) 0)) ∧
    (hwmac_addr ++ List.replicate (12 - hwmac_addr.length) 0).length = 12 ∧
    (DhcpPacket.create_discovery_packet random_bits hwmac_addr).is_valid = true := by
  refine ⟨rfl, rfl, rfl, rfl, rfl, rfl, rfl, rfl, rfl, rfl, rfl, rfl, rfl, rfl, ?_, rfl⟩
  simp only [List.length_append, List.length_replicate]
  omega

/-- Witness for C9 at a concrete 6-byte MAC address. -/
theorem create_discovery_packet_spec_witness :
    (DhcpPacket.create_discovery_packet 7 [1, 2, 3, 4, 5, 6]).get_field FIELD_OP =
      some (Value.int FIELD_VALUE_OP_CLIENT_REQUEST) ∧
    (DhcpPacket.create_discovery_packet 7 [1, 2, 3, 4, 5, 6]).is_valid = true ∧
    (DhcpPacket.create_discovery_packet 7 [1, 2, 3, 4, 5, 6]).get_field FIELD_CLIENT_HWADDR =
      some (Value.str [1, 2, 3, 4, 5, 6, 0, 0, 0, 0, 0, 0]) :=
  have h := create_discovery_packet_spec 7 [1, 2, 3, 4, 5, 6] (by decide)
  ⟨h.1, h.2.2.2.2.2.2.2.2.2.2.2.2.2.2.2, by
    have := h.2.2.2.2.2.2.2.2.2.2.2.2.2.1
    simpa using this⟩


/-! ## The option-parsing loop relative to the region start

`parseList` is the same loop as `parseOptions`, expressed on the suffix
of the buffer that starts at the current read offset;
`parseOptions_eq_parseList` proves the two agree. -/

def parseList : List Nat → List (OptionDef × Value) →
    Except Unit (List (OptionDef × Value))
  | [], acc => .ok acc
  | t :: rest, acc =>
      if t = OPTION_END then .ok acc
      else if t = OPTION_PAD then parseList rest acc
      else
        match rest with
        | [] => .error ()
        | len :: rest2 =>
            match get_dhcp_option_by_number t with
            | none => parseList (rest2.drop len) acc
            | some o =>
                match o.unpack (rest2.take len) with
                | none => .error ()
                | some v => parseList (rest2.drop len) (alSet acc o v)
termination_by l _ => l.length
decreasing_by
  all_goals simp [List.length_drop]
  all_goals omega

theorem parseList_nil (acc : List (OptionDef × Value)) :
    parseList [] acc = .ok acc := by
  rw [parseList.eq_def]

theorem parseList_cons (t : Nat) (rest : List Nat)
    (acc : List (OptionDef × Value)) :
    parseList (t :: rest) acc =
      if t = OPTION_END then .ok acc
      else if t = OPTION_PAD then parseList rest acc
      else
        match rest with
        | [] => .error ()
        | len :: rest2 =>
            match get_dhcp_option_by_number t with
            | none => parseList (rest2.drop len) acc
            | some o =>
                match o.unpack (rest2.take len) with
                | none => .error ()
                | some v => parseList (rest2.drop len) (alSet acc o v) := by
  rw [parseList.eq_def]

theorem parseOptions_eq_parseList_aux :
    ∀ (n : Nat) (tail : List Nat), tail.length ≤ n →
    ∀ (pre : List Nat) (acc : List (OptionDef × Value)),
      parseOptions (pre ++ tail) pre.length acc = parseList tail acc := by
  intro n
  induction n with
  | zero =>
      intro tail hlen pre acc
      have ht : tail = [] := List.eq_nil_of_length_eq_zero (by omega)
      subst ht
      rw [parseOptions, parseList_nil]
      rw [dif_neg (by simp)]
  | succ k ih =>
      intro tail hlen pre acc
      cases tail with
      | nil =>
          rw [parseOptions, parseList_nil]
          rw [dif_neg (by simp)]
      | cons t rest =>
          have hget : (pre ++ t :: rest).getD pre.length 0 = t := by
            have := getD_append_skip pre (t :: rest) 0 0
            simpa using this
          rw [parseOptions]
          rw [dif_pos (by simp)]
          rw [hget]
          by_cases h255 : t = OPTION_END
          · rw [if_pos h255, parseList_cons, if_pos h255]
          · rw [if_neg h255, parseList_cons, if_neg h255]
            by_cases hpad : t = OPTION_PAD
            · rw [if_pos hpad, if_pos hpad]
              have hsplit : pre ++ t :: rest = (pre ++ [t]) ++ rest := by simp
              have hoff : pre.length + 1 = (pre ++ [t]).length := by simp
              rw [hsplit, hoff]
              exact ih rest (by simp at hlen; omega) (pre ++ [t]) acc
            · rw [if_neg hpad, if_neg hpad]
              cases rest with
              | nil =>
                  have hcond : ¬ (pre.length + 1 < (pre ++ t :: ([] : List Nat)).length) := by
                    simp
                  rw [if_neg hcond]
              | cons len rest2 =>
                  rw [if_pos (by simp)]
                  have hgetlen : (pre ++ t :: len :: rest2).getD (pre.length + 1) 0 = len := by
                    have := getD_append_skip pre (t :: len :: rest2) 1 0
                    simpa using this
                  have hdata : pySlice (pre ++ t :: len :: rest2) (pre.length + 2) len =
                      rest2.take len := by
                    have h2 : pre ++ t :: len :: rest2 = (pre ++ [t, len]) ++ rest2 := by simp
                    have h3 : pre.length + 2 = (pre ++ [t, len]).length + 0 := by simp
                    rw [h2, h3, pySlice_append_skip]
                    simp [pySlice]
                  rw [hgetlen]
                  dsimp only
                  rw [hdata]
                  by_cases hle : len ≤ rest2.length
                  · have hsplit2 : pre ++ t :: len :: rest2 =
                        (pre ++ t :: len :: rest2.take len) ++ rest2.drop len := by
                      simp
                    have hoff2 : pre.length + 2 + len =
                        (pre ++ t :: len :: rest2.take len).length := by
                      simp [List.length_take]
                      omega
                    have hlen2 : (rest2.drop len).length ≤ k := by
                      simp only [List.length_cons] at hlen
                      simp [List.length_drop]
                      omega
                    cases hopt : get_dhcp_option_by_number t with
                    | none =>
                        dsimp only
                        rw [hsplit2, hoff2]
                        exact ih (rest2.drop len) hlen2 _ acc
                    | some o =>
                        dsimp only
                        cases hu : o.unpack (rest2.take len) with
                        | none => rfl
                        | some v =>
                            dsimp only
                            rw [hsplit2, hoff2]
                            exact ih (rest2.drop len) hlen2 _ (alSet acc o v)
                  · have hdropnil : rest2.drop len = [] := by
                      apply List.eq_nil_of_length_eq_zero
                      simp [List.length_drop]
                      omega
                    have hstop : ∀ acc2, parseOptions (pre ++ t :: len :: rest2)
                        (pre.length + 2 + len) acc2 = .ok acc2 := by
                      intro acc2
                      rw [parseOptions]
                      rw [dif_neg (by simp; omega)]
                    cases hopt : get_dhcp_option_by_number t with
                    | none =>
                        dsimp only
                        rw [hstop, hdropnil, parseList_nil]
                    | some o =>
                        dsimp only
                        cases hu : o.unpack (rest2.take len) with
                        | none => rfl
                        | some v =>
                            dsimp only
                            rw [hstop, hdropnil, parseList_nil]

/-- The option-parsing loop viewed from any split of the buffer at the
current read offset equals the relative-offset loop `parseList` on the
suffix. -/
theorem parseOptions_eq_parseList (pre tail : List Nat)
    (acc : List (OptionDef × Value)) :
    parseOptions (pre ++ tail) pre.length acc = parseList tail acc :=
  parseOptions_eq_parseList_aux tail.length tail (le_refl _) pre acc


/-! ## Parsing the encoder's option region recovers the option mapping -/

theorem parseList_packOptions :
    ∀ (catalog : List OptionDef) (m : List (OptionDef × Value)) (off off' : Nat)
      (ob : List Nat) (acc : List (OptionDef × Value)) (suffix : List Nat),
      catalog.Nodup →
      (∀ o ∈ catalog, get_dhcp_option_by_number o.number = some o) →
      (∀ o ∈ catalog, o.number ≠ OPTION_PAD ∧ o.number ≠ OPTION_END) →
      packOptions catalog m off = .ok (ob, off') →
      ∃ accF, parseList (ob ++ OPTION_END :: suffix) acc = .ok accF ∧
        (∀ x v, x ∈ catalog → alGet m x = some v → alGet accF x = some v) ∧
        (∀ x, x ∈ catalog → alGet m x = none → alGet accF x = alGet acc x) ∧
        (∀ x, x ∉ catalog → alGet accF x = alGet acc x) := by
  intro catalog
  induction catalog with
  | nil =>
      intro m off off' ob acc suffix _ _ _ h
      obtain ⟨hob, _⟩ := packOptions_nil_inv h
      subst hob
      refine ⟨acc, ?_, ?_, ?_, fun x _ => rfl⟩
      · rw [List.nil_append, parseList_cons, if_pos rfl]
      · intro x v hx
        exact absurd hx (List.not_mem_nil x)
      · intro x hx
        exact absurd hx (List.not_mem_nil x)
  | cons o rest ih =>
      intro m off off' ob acc suffix hnd hlk hnum h
      have hnd2 := List.nodup_cons.mp hnd
      rcases packOptions_cons_inv h with ⟨hg, hrec⟩ |
          ⟨v, d, restB, hg, hp, hon, hdl, hrec, hob⟩
      · obtain ⟨accF, hparse, hsome, hnone, hout⟩ :=
          ih m off off' ob acc suffix hnd2.2
            (fun x hx => hlk x (by simp [hx]))
            (fun x hx => hnum x (by simp [hx])) hrec
        refine ⟨accF, hparse, ?_, ?_, ?_⟩
        · intro x vv hx hget
          rcases List.mem_cons.mp hx with rfl | hx2
          · rw [hg] at hget
            exact Option.noConfusion hget
          · exact hsome x vv hx2 hget
        · intro x hx hget
          rcases List.mem_cons.mp hx with rfl | hx2
          · exact hout x hnd2.1
          · exact hnone x hx2 hget
        · intro x hx
          exact hout x (fun h2 => hx (by simp [h2]))
      · subst hob
        have hnum0 := hnum o (by simp)
        have hlk0 := hlk o (by simp)
        have hstep :
            parseList (((o.number :: d.length :: d) ++ restB) ++ OPTION_END :: suffix) acc =
              parseList (restB ++ OPTION_END :: suffix) (alSet acc o v) := by
          have hshape : ((o.number :: d.length :: d) ++ restB) ++ OPTION_END :: suffix =
              o.number :: d.length :: ((d ++ restB) ++ OPTION_END :: suffix) := by
            simp
          rw [hshape, parseList_cons, if_neg hnum0.2, if_neg hnum0.1]
          dsimp only
          have htake : ((d ++ restB) ++ OPTION_END :: suffix).take d.length = d := by
            rw [List.append_assoc, List.take_left]
          have hdrop : ((d ++ restB) ++ OPTION_END :: suffix).drop d.length =
              restB ++ OPTION_END :: suffix := by
            rw [List.append_assoc, List.drop_left]
          rw [htake, hdrop, hlk0]
          dsimp only
          rw [OptionDef.unpack_pack_option hp]
        obtain ⟨accF, hparse, hsome, hnone, hout⟩ :=
          ih m (off + 2 + d.length) off' restB (alSet acc o v) suffix hnd2.2
            (fun x hx => hlk x (by simp [hx]))
            (fun x hx => hnum x (by simp [hx])) hrec
        refine ⟨accF, by rw [hstep]; exact hparse, ?_, ?_, ?_⟩
        · intro x vv hx hget
          rcases List.mem_cons.mp hx with rfl | hx2
          · rw [hg] at hget
            cases hget
            rw [hout x hnd2.1, alGet_alSet_self]
          · exact hsome x vv hx2 hget
        · intro x hx hget
          rcases List.mem_cons.mp hx with rfl | hx2
          · rw [hg] at hget
            exact Option.noConfusion hget
          · rw [hnone x hx2 hget, alGet_alSet_ne]
            intro heq
            exact hnd2.1 (heq ▸ hx2)
        · intro x hx
          rw [hout x (fun h2 => hx (by simp [h2])), alGet_alSet_ne]
          intro heq
          exact hx (by simp [heq])


/-! ## Locating each field's bytes in an encoded buffer -/

theorem pySlice_concat (pre mid post : List Nat) (n k : Nat)
    (hn : pre.length = n) (hk : mid.length = k) :
    pySlice (pre ++ (mid ++ post)) n k = mid := by
  subst hn
  subst hk
  rw [pySlice, List.drop_left, List.take_left]

theorem header_slices {m : List (Field × Value)} {fb : List Nat} {off1 : Nat}
    (rest : List Nat)
    (h : packFields DHCP_PACKET_FIELDS m 0 = .ok (fb, off1)) :
    off1 = 240 ∧ fb.length = 240 ∧
    ∃ v1 v2 v3 v4 v5 v6 v7 v8 v9 v10 v11 v12 v13 d1 d2 d3 d4 d5 d6 d7 d8 d9 d10 d11 d12 d13,
      alGet m FIELD_OP = some v1 ∧ FIELD_OP.pack v1 = some d1 ∧
      alGet m FIELD_HWTYPE = some v2 ∧ FIELD_HWTYPE.pack v2 = some d2 ∧
      alGet m FIELD_HWADDR_LEN = some v3 ∧ FIELD_HWADDR_LEN.pack v3 = some d3 ∧
      alGet m FIELD_RELAY_HOPS = some v4 ∧ FIELD_RELAY_HOPS.pack v4 = some d4 ∧
      alGet m FIELD_TRANSACTION_ID = some v5 ∧ FIELD_TRANSACTION_ID.pack v5 = some d5 ∧
      alGet m FIELD_TIME_SINCE_START = some v6 ∧ FIELD_TIME_SINCE_START.pack v6 = some d6 ∧
      alGet m FIELD_FLAGS = some v7 ∧ FIELD_FLAGS.pack v7 = some d7 ∧
      alGet m FIELD_CLIENT_IP = some v8 ∧ FIELD_CLIENT_IP.pack v8 = some d8 ∧
      alGet m FIELD_YOUR_IP = some v9 ∧ FIELD_YOUR_IP.pack v9 = some d9 ∧
      alGet m FIELD_SERVER_IP = some v10 ∧ FIELD_SERVER_IP.pack v10 = some d10 ∧
      alGet m FIELD_GATEWAY_IP = some v11 ∧ FIELD_GATEWAY_IP.pack v11 = some d11 ∧
      alGet m FIELD_CLIENT_HWADDR = some v12 ∧ FIELD_CLIENT_HWADDR.pack v12 = some d12 ∧
      alGet m FIELD_MAGIC_COOKIE = some v13 ∧ FIELD_MAGIC_COOKIE.pack v13 = some d13 ∧
      pySlice (fb ++ rest) FIELD_OP.offset FIELD_OP.size = d1 ∧
      pySlice (fb ++ rest) FIELD_HWTYPE.offset FIELD_HWTYPE.size = d2 ∧
      pySlice (fb ++ rest) FIELD_HWADDR_LEN.offset FIELD_HWADDR_LEN.size = d3 ∧
      pySlice (fb ++ rest) FIELD_RELAY_HOPS.offset FIELD_RELAY_HOPS.size = d4 ∧
      pySlice (fb ++ rest) FIELD_TRANSACTION_ID.offset FIELD_TRANSACTION_ID.size = d5 ∧
      pySlice (fb ++ rest) FIELD_TIME_SINCE_START.offset FIELD_TIME_SINCE_START.size = d6 ∧
      pySlice (fb ++ rest) FIELD_FLAGS.offset FIELD_FLAGS.size = d7 ∧
      pySlice (fb ++ rest) FIELD_CLIENT_IP.offset FIELD_CLIENT_IP.size = d8 ∧
      pySlice (fb ++ rest) FIELD_YOUR_IP.offset FIELD_YOUR_IP.size = d9 ∧
      pySlice (fb ++ rest) FIELD_SERVER_IP.offset FIELD_SERVER_IP.size = d10 ∧
      pySlice (fb ++ rest) FIELD_GATEWAY_IP.offset FIELD_GATEWAY_IP.size = d11 ∧
      pySlice (fb ++ rest) FIELD_CLIENT_HWADDR.offset FIELD_CLIENT_HWADDR.size = d12 ∧
      pySlice (fb ++ rest) FIELD_MAGIC_COOKIE.offset FIELD_MAGIC_COOKIE.size = d13 := by
  obtain ⟨v1, v2, v3, v4, v5, v6, v7, v8, v9, v10, v11, v12, v13, d1, d2, d3, d4, d5, d6, d7, d8, d9, d10, d11, d12, d13, hg1, hp1, hg2, hp2, hg3, hp3, hg4, hp4, hg5, hp5, hg6, hp6, hg7, hp7, hg8, hp8, hg9, hp9, hg10, hp10, hg11, hp11, hg12, hp12, hg13, hp13, hshape, hoff⟩ := packFields_header h
  have l1 : d1.length = 1 := Field.pack_length hp1
  have l2 : d2.length = 1 := Field.pack_length hp2
  have l3 : d3.length = 1 := Field.pack_length hp3
  have l4 : d4.length = 1 := Field.pack_length hp4
  have l5 : d5.length = 4 := Field.pack_length hp5
  have l6 : d6.length = 2 := Field.pack_length hp6
  have l7 : d7.length = 2 := Field.pack_length hp7
  have l8 : d8.length = 4 := Field.pack_length hp8
  have l9 : d9.length = 4 := Field.pack_length hp9
  have l10 : d10.length = 4 := Field.pack_length hp10
  have l11 : d11.length = 4 := Field.pack_length hp11
  have l12 : d12.length = 16 := Field.pack_length hp12
  have l13 : d13.length = 4 := Field.pack_length hp13
  have e1 : fb ++ rest = (([] : List Nat)) ++ (d1 ++ (d2 ++ (d3 ++ (d4 ++ (d5 ++ (d6 ++ (d7 ++ (d8 ++ (d9 ++ (d10 ++ (d11 ++ (d12 ++ (List.replicate 192 0 ++ (d13 ++ (rest))))))))))))))) := by
    rw [hshape]
    simp only [List.append_assoc, List.nil_append, List.append_nil]
  have s1 : pySlice (fb ++ rest) FIELD_OP.offset FIELD_OP.size = d1 := by
    rw [e1]
    exact pySlice_concat _ _ _ _ _
      (by simp only [List.length_append, List.length_nil, List.length_replicate, FIELD_OP])
      (by simp only [l1, FIELD_OP])
  have e2 : fb ++ rest = (d1) ++ (d2 ++ (d3 ++ (d4 ++ (d5 ++ (d6 ++ (d7 ++ (d8 ++ (d9 ++ (d10 ++ (d11 ++ (d12 ++ (List.replicate 192 0 ++ (d13 ++ (rest)))))))))))))) := by
    rw [hshape]
    simp only [List.append_assoc, List.nil_append, List.append_nil]
  have s2 : pySlice (fb ++ rest) FIELD_HWTYPE.offset FIELD_HWTYPE.size = d2 := by
    rw [e2]
    exact pySlice_concat _ _ _ _ _
      (by simp only [List.length_append, List.length_nil, List.length_replicate, l1, FIELD_HWTYPE])
      (by simp only [l2, FIELD_HWTYPE])
  have e3 : fb ++ rest = (d1 ++ (d2)) ++ (d3 ++ (d4 ++ (d5 ++ (d6 ++ (d7 ++ (d8 ++ (d9 ++ (d10 ++ (d11 ++ (d12 ++ (List.replicate 192 0 ++ (d13 ++ (rest))))))))))))) := by
    rw [hshape]
    simp only [List.append_assoc, List.nil_append, List.append_nil]
  have s3 : pySlice (fb ++ rest) FIELD_HWADDR_LEN.offset FIELD_HWADDR_LEN.size = d3 := by
    rw [e3]
    exact pySlice_concat _ _ _ _ _
      (by simp only [List.length_append, List.length_nil, List.length_replicate, l1, l2, FIELD_HWADDR_LEN])
      (by simp only [l3, FIELD_HWADDR_LEN])
  have e4 : fb ++ rest = (d1 ++ (d2 ++ (d3))) ++ (d4 ++ (d5 ++ (d6 ++ (d7 ++ (d8 ++ (d9 ++ (d10 ++ (d11 ++ (d12 ++ (List.replicate 192 0 ++ (d13 ++ (rest)))))))))))) := by
    rw [hshape]
    simp only [List.append_assoc, List.nil_append, List.append_nil]
  have s4 : pySlice (fb ++ rest) FIELD_RELAY_HOPS.offset FIELD_RELAY_HOPS.size = d4 := by
    rw [e4]
    exact pySlice_concat _ _ _ _ _
      (by simp only [List.length_append, List.length_nil, List.length_replicate, l1, l2, l3, FIELD_RELAY_HOPS])
      (by simp only [l4, FIELD_RELAY_HOPS])
  have e5 : fb ++ rest = (d1 ++ (d2 ++ (d3 ++ (d4)))) ++ (d5 ++ (d6 ++ (d7 ++ (d8 ++ (d9 ++ (d10 ++ (d11 ++ (d12 ++ (List.replicate 192 0 ++ (d13 ++ (rest))))))))))) := by
    rw [hshape]
    simp only [List.append_assoc, List.nil_append, List.append_nil]
  have s5 : pySlice (fb ++ rest) FIELD_TRANSACTION_ID.offset FIELD_TRANSACTION_ID.size = d5 := by
    rw [e5]
    exact pySlice_concat _ _ _ _ _
      (by simp only [List.length_append, List.length_nil, List.length_replicate, l1, l2, l3, l4, FIELD_TRANSACTION_ID])
      (by simp only [l5, FIELD_TRANSACTION_ID])
  have e6 : fb ++ rest = (d1 ++ (d2 ++ (d3 ++ (d4 ++ (d5))))) ++ (d6 ++ (d7 ++ (d8 ++ (d9 ++ (d10 ++ (d11 ++ (d12 ++ (List.replicate 192 0 ++ (d13 ++ (rest)))))))))) := by
    rw [hshape]
    simp only [List.append_assoc, List.nil_append, List.append_nil]
  have s6 : pySlice (fb ++ rest) FIELD_TIME_SINCE_START.offset FIELD_TIME_SINCE_START.size = d6 := by
    rw [e6]
    exact pySlice_concat _ _ _ _ _
      (by simp only [List.length_append, List.length_nil, List.length_replicate, l1, l2, l3, l4, l5, FIELD_TIME_SINCE_START])
      (by simp only [l6, FIELD_TIME_SINCE_START])
  have e7 : fb ++ rest = (d1 ++ (d2 ++ (d3 ++ (d4 ++ (d5 ++ (d6)))))) ++ (d7 ++ (d8 ++ (d9 ++ (d10 ++ (d11 ++ (d12 ++ (List.replicate 192 0 ++ (d13 ++ (rest))))))))) := by
    rw [hshape]
    simp only [List.append_assoc, List.nil_append, List.append_nil]
  have s7 : pySlice (fb ++ rest) FIELD_FLAGS.offset FIELD_FLAGS.size = d7 := by
    rw [e7]
    exact pySlice_concat _ _ _ _ _
      (by simp only [List.length_append, List.length_nil, List.length_replicate, l1, l2, l3, l4, l5, l6, FIELD_FLAGS])
      (by simp only [l7, FIELD_FLAGS])
  have e8 : fb ++ rest = (d1 ++ (d2 ++ (d3 ++ (d4 ++ (d5 ++ (d6 ++ (d7))))))) ++ (d8 ++ (d9 ++ (d10 ++ (d11 ++ (d12 ++ (List.replicate 192 0 ++ (d13 ++ (rest)))))))) := by
    rw [hshape]
    simp only [List.append_assoc, List.nil_append, List.append_nil]
  have s8 : pySlice (fb ++ rest) FIELD_CLIENT_IP.offset FIELD_CLIENT_IP.size = d8 := by
    rw [e8]
    exact pySlice_concat _ _ _ _ _
      (by simp only [List.length_append, List.length_nil, List.length_replicate, l1, l2, l3, l4, l5, l6, l7, FIELD_CLIENT_IP])
      (by simp only [l8, FIELD_CLIENT_IP])
  have e9 : fb ++ rest = (d1 ++ (d2 ++ (d3 ++ (d4 ++ (d5 ++ (d6 ++ (d7 ++ (d8)))))))) ++ (d9 ++ (d10 ++ (d11 ++ (d12 ++ (List.replicate 192 0 ++ (d13 ++ (rest))))))) := by
    rw [hshape]
    simp only [List.append_assoc, List.nil_append, List.append_nil]
  have s9 : pySlice (fb ++ rest) FIELD_YOUR_IP.offset FIELD_YOUR_IP.size = d9 := by
    rw [e9]
    exact pySlice_concat _ _ _ _ _
      (by simp only [List.length_append, List.length_nil, List.length_replicate, l1, l2, l3, l4, l5, l6, l7, l8, FIELD_YOUR_IP])
      (by simp only [l9, FIELD_YOUR_IP])
  have e10 : fb ++ rest = (d1 ++ (d2 ++ (d3 ++ (d4 ++ (d5 ++ (d6 ++ (d7 ++ (d8 ++ (d9))))))))) ++ (d10 ++ (d11 ++ (d12 ++ (List.replicate 192 0 ++ (d13 ++ (rest)))))) := by
    rw [hshape]
    simp only [List.append_assoc, List.nil_append, List.append_nil]
  have s10 : pySlice (fb ++ rest) FIELD_SERVER_IP.offset FIELD_SERVER_IP.size = d10 := by
    rw [e10]
    exact pySlice_concat _ _ _ _ _
      (by simp only [List.length_append, List.length_nil, List.length_replicate, l1, l2, l3, l4, l5, l6, l7, l8, l9, FIELD_SERVER_IP])
      (by simp only [l10, FIELD_SERVER_IP])
  have e11 : fb ++ rest = (d1 ++ (d2 ++ (d3 ++ (d4 ++ (d5 ++ (d6 ++ (d7 ++ (d8 ++ (d9 ++ (d10)))))))))) ++ (d11 ++ (d12 ++ (List.replicate 192 0 ++ (d13 ++ (rest))))) := by
    rw [hshape]
    simp only [List.append_assoc, List.nil_append, List.append_nil]
  have s11 : pySlice (fb ++ rest) FIELD_GATEWAY_IP.offset FIELD_GATEWAY_IP.size = d11 := by
    rw [e11]
    exact pySlice_concat _ _ _ _ _
      (by simp only [List.length_append, List.length_nil, List.length_replicate, l1, l2, l3, l4, l5, l6, l7, l8, l9, l10, FIELD_GATEWAY_IP])
      (by simp only [l11, FIELD_GATEWAY_IP])
  have e12 : fb ++ rest = (d1 ++ (d2 ++ (d3 ++ (d4 ++ (d5 ++ (d6 ++ (d7 ++ (d8 ++ (d9 ++ (d10 ++ (d11))))))))))) ++ (d12 ++ (List.replicate 192 0 ++ (d13 ++ (rest)))) := by
    rw [hshape]
    simp only [List.append_assoc, List.nil_append, List.append_nil]
  have s12 : pySlice (fb ++ rest) FIELD_CLIENT_HWADDR.offset FIELD_CLIENT_HWADDR.size = d12 := by
    rw [e12]
    exact pySlice_concat _ _ _ _ _
      (by simp only [List.length_append, List.length_nil, List.length_replicate, l1, l2, l3, l4, l5, l6, l7, l8, l9, l10, l11, FIELD_CLIENT_HWADDR])
      (by simp only [l12, FIELD_CLIENT_HWADDR])
  have e13 : fb ++ rest = (d1 ++ (d2 ++ (d3 ++ (d4 ++ (d5 ++ (d6 ++ (d7 ++ (d8 ++ (d9 ++ (d10 ++ (d11 ++ (d12 ++ (List.replicate 192 0))))))))))))) ++ (d13 ++ (rest)) := by
    rw [hshape]
    simp only [List.append_assoc, List.nil_append, List.append_nil]
  have s13 : pySlice (fb ++ rest) FIELD_MAGIC_COOKIE.offset FIELD_MAGIC_COOKIE.size = d13 := by
    rw [e13]
    exact pySlice_concat _ _ _ _ _
      (by simp only [List.length_append, List.length_nil, List.length_replicate, l1, l2, l3, l4, l5, l6, l7, l8, l9, l10, l11, l12, FIELD_MAGIC_COOKIE])
      (by simp only [l13, FIELD_MAGIC_COOKIE])
  refine ⟨hoff, ?_, ?_⟩
  · rw [hshape]
    simp only [List.length_append, l1, l2, l3, l4, l5, l6, l7, l8, l9, l10, l11, l12, l13, List.length_replicate, List.length_nil]
  · exact ⟨v1, v2, v3, v4, v5, v6, v7, v8, v9, v10, v11, v12, v13, d1, d2, d3, d4, d5, d6, d7, d8, d9, d10, d11, d12, d13, hg1, hp1, hg2, hp2, hg3, hp3, hg4, hp4, hg5, hp5, hg6, hp6, hg7, hp7, hg8, hp8, hg9, hp9, hg10, hp10, hg11, hp11, hg12, hp12, hg13, hp13, s1, s2, s3, s4, s5, s6, s7, s8, s9, s10, s11, s12, s13⟩


/-! ## Fixed-offset placement of the transaction id (C8) -/

/-- C8: in every encoded packet, bytes [4, 8) are the big-endian 4-byte
encoding of the transaction-id field value. -/
theorem transaction_id_bytes (p : DhcpPacket) (bs : List Nat) (x : Int)
    (hx : alGet p.fields FIELD_TRANSACTION_ID = some (Value.int x))
    (hrange : 0 ≤ x ∧ x < 4294967296)
    (h : p.to_binary_string = .ok (some bs)) :
    pySlice bs 4 4 = be32 x.toNat := by
  obtain ⟨hv, fb, o1, ob, o2, hf, ho, hbs⟩ := to_binary_string_inv h
  obtain ⟨hoff, hfblen, v1, v2, v3, v4, v5, v6, v7, v8, v9, v10, v11, v12, v13, d1, d2, d3, d4, d5, d6, d7, d8, d9, d10, d11, d12, d13, hg1, hp1, hg2, hp2, hg3, hp3, hg4, hp4, hg5, hp5, hg6, hp6, hg7, hp7, hg8, hp8, hg9, hp9, hg10, hp10, hg11, hp11, hg12, hp12, hg13, hp13, s1, s2, s3, s4, s5, s6, s7, s8, s9, s10, s11, s12, s13⟩ :=
    header_slices (ob ++ ([OPTION_END] ++
      List.replicate (DHCP_MIN_PACKET_SIZE - (o2 + 1)) OPTION_PAD)) hf
  subst hbs
  have hvx : v5 = Value.int x := Option.some.inj (hg5.symm.trans hx)
  subst hvx
  have hd5 : d5 = be32 x.toNat := by
    simp only [Field.pack, FIELD_TRANSACTION_ID] at hp5
    rw [if_pos hrange] at hp5
    exact (Option.some.inj hp5).symm
  rw [← hd5]
  simp only [List.append_assoc]
  exact s5


/-! ## The decode-encode round trip (C1, amended) -/

set_option maxHeartbeats 1600000 in
/-- C1 (amended): for every packet whose encoding succeeds and whose
stored hardware-address value is exactly 16 bytes long, decoding the
encoded buffer yields a packet that agrees with the original on all 13
mandatory fields and on every option of the catalog. -/
theorem decode_encode_roundtrip (p : DhcpPacket) (bs s : List Nat)
    (hhw : alGet p.fields FIELD_CLIENT_HWADDR = some (Value.str s))
    (hs16 : s.length = 16)
    (he : p.to_binary_string = .ok (some bs)) :
    ∃ p', DhcpPacket.ofBytes bs = .ok p' ∧
      (∀ f ∈ DHCP_PACKET_FIELDS, p'.get_field f = p.get_field f) ∧
      (∀ o ∈ DHCP_PACKET_OPTIONS, p'.get_option o = p.get_option o) := by
  obtain ⟨hv, fb, o1, ob, o2, hf, ho, hbs⟩ := to_binary_string_inv he
  obtain ⟨hoff, hfblen, v1, v2, v3, v4, v5, v6, v7, v8, v9, v10, v11, v12, v13, d1, d2, d3, d4, d5, d6, d7, d8, d9, d10, d11, d12, d13, hg1, hp1, hg2, hp2, hg3, hp3, hg4, hp4, hg5, hp5, hg6, hp6, hg7, hp7, hg8, hp8, hg9, hp9, hg10, hp10, hg11, hp11, hg12, hp12, hg13, hp13, s1, s2, s3, s4, s5, s6, s7, s8, s9, s10, s11, s12, s13⟩ :=
    header_slices (ob ++ ([OPTION_END] ++
      List.replicate (DHCP_MIN_PACKET_SIZE - (o2 + 1)) OPTION_PAD)) hf
  subst hoff
  have hvx : v12 = Value.str s := Option.some.inj (hg12.symm.trans hhw)
  subst hvx
  have hbs2 : bs = fb ++ (ob ++ ([OPTION_END] ++ List.replicate (DHCP_MIN_PACKET_SIZE - (o2 + 1)) OPTION_PAD)) := by
    rw [hbs]
    simp only [List.append_assoc]
  clear hbs
  subst hbs2
  have hlen : ¬ ((fb ++ (ob ++ ([OPTION_END] ++ List.replicate (DHCP_MIN_PACKET_SIZE - (o2 + 1)) OPTION_PAD))).length < OPTIONS_START_OFFSET + 1) := by
    simp only [List.length_append, hfblen, List.length_cons, List.length_nil,
      List.length_replicate, OPTIONS_START_OFFSET]
    omega
  obtain ⟨accF, hparse, hsome, hnone, hout⟩ :=
    parseList_packOptions DHCP_PACKET_OPTIONS p.options 240 o2 ob []
      (List.replicate (DHCP_MIN_PACKET_SIZE - (o2 + 1)) OPTION_PAD)
      (by decide) (by decide) (by decide) ho
  have hparseAll : parseOptions (fb ++ (ob ++ ([OPTION_END] ++ List.replicate (DHCP_MIN_PACKET_SIZE - (o2 + 1)) OPTION_PAD))) OPTIONS_START_OFFSET [] = .ok accF := by
    have h1 := parseOptions_eq_parseList fb (ob ++ ([OPTION_END] ++ List.replicate (DHCP_MIN_PACKET_SIZE - (o2 + 1)) OPTION_PAD)) []
    rw [hfblen] at h1
    exact h1.trans hparse
  refine ⟨⟨[(FIELD_OP, v1), (FIELD_HWTYPE, v2), (FIELD_HWADDR_LEN, v3), (FIELD_RELAY_HOPS, v4), (FIELD_TRANSACTION_ID, v5), (FIELD_TIME_SINCE_START, v6), (FIELD_FLAGS, v7), (FIELD_CLIENT_IP, v8), (FIELD_YOUR_IP, v9), (FIELD_SERVER_IP, v10), (FIELD_GATEWAY_IP, v11), (FIELD_CLIENT_HWADDR, Value.str s), (FIELD_MAGIC_COOKIE, v13)], accF⟩, ?_, ?_, ?_⟩
  · rw [DhcpPacket.ofBytes, if_neg hlen]
    simp only [DHCP_PACKET_FIELDS, unpackFields, s1, s2, s3, s4, s5, s6, s7, s8, s9, s10, s11, s12, s13,
      Field.unpack_pack hp1 (by decide),
      Field.unpack_pack hp2 (by decide),
      Field.unpack_pack hp3 (by decide),
      Field.unpack_pack hp4 (by decide),
      Field.unpack_pack hp5 (by decide),
      Field.unpack_pack hp6 (by decide),
      Field.unpack_pack hp7 (by decide),
      Field.unpack_pack hp8 (by decide),
      Field.unpack_pack hp9 (by decide),
      Field.unpack_pack hp10 (by decide),
      Field.unpack_pack hp11 (by decide),
      Field.unpack_pack_hwaddr rfl hp12 hs16,
      Field.unpack_pack hp13 (by decide),
      hparseAll]
  · intro f hfmem
    simp only [DHCP_PACKET_FIELDS, List.mem_cons, List.not_mem_nil, or_false] at hfmem
    rcases hfmem with rfl | rfl | rfl | rfl | rfl | rfl | rfl | rfl | rfl | rfl | rfl | rfl | rfl
    all_goals simp only [DhcpPacket.get_field, hg1, hg2, hg3, hg4, hg5, hg6, hg7, hg8, hg9, hg10, hg11, hg12, hg13]
    all_goals rfl
  · intro o hom
    simp only [DhcpPacket.get_option]
    cases hmo : alGet p.options o with
    | some v => exact hsome o v hom hmo
    | none => exact hnone o hom hmo


/-! ## Option ordering in the encoded output (C2) -/

theorem findTagPos_cons (t : Nat) (rest : List Nat) (tag pos : Nat) :
    findTagPos (t :: rest) tag pos =
      if t = OPTION_END then none
      else if t = OPTION_PAD then findTagPos rest tag (pos + 1)
      else if t = tag then some pos
      else
        match rest with
        | [] => none
        | len :: rest2 => findTagPos (rest2.drop len) tag (pos + 2 + len) := by
  rw [findTagPos.eq_def]

/-- Walking the option records, a record whose tag is not the one sought
is skipped whole. -/
theorem findTagPos_skip (t tag : Nat) (d tail2 : List Nat) (pos : Nat)
    (ht255 : t ≠ OPTION_END) (ht0 : t ≠ OPTION_PAD) (htag : t ≠ tag) :
    findTagPos (t :: d.length :: (d ++ tail2)) tag pos =
      findTagPos tail2 tag (pos + 2 + d.length) := by
  rw [findTagPos_cons, if_neg ht255, if_neg ht0, if_neg htag]
  dsimp only
  rw [List.drop_left]

/-- Walking the option records, the sought tag is found at the current
position. -/
theorem findTagPos_hit (t : Nat) (rest : List Nat) (pos : Nat)
    (ht255 : t ≠ OPTION_END) (ht0 : t ≠ OPTION_PAD) :
    findTagPos (t :: rest) t pos = some pos := by
  rw [findTagPos_cons, if_neg ht255, if_neg ht0, if_pos rfl]

/-- C2 (amended): in every encoded packet containing both the routers(3)
and subnet-mask(1) options, the routers record comes first: walking the
option records of the output, routers' tag byte is found at a strictly
smaller region offset than subnet-mask's, regardless of insertion order,
because options are serialized in the fixed catalog order (which lists
routers before subnet-mask). -/
theorem routers_before_subnet (p : DhcpPacket) (bs : List Nat) (vr vs : Value)
    (hr : alGet p.options OPTION_ROUTERS = some vr)
    (hs : alGet p.options OPTION_SUBNET_MASK = some vs)
    (he : p.to_binary_string = .ok (some bs)) :
    ∃ i j, findTagPos (bs.drop OPTIONS_START_OFFSET) OPTION_ROUTERS.number 0 = some i ∧
      findTagPos (bs.drop OPTIONS_START_OFFSET) OPTION_SUBNET_MASK.number 0 = some j ∧
      i < j := by
  obtain ⟨hv, fb, o1, ob, o2, hf, ho, hbs⟩ := to_binary_string_inv he
  obtain ⟨hoff, hfblen, -⟩ := header_slices [] hf
  subst hoff
  have hdrop : bs.drop OPTIONS_START_OFFSET =
      ob ++ ([OPTION_END] ++
        List.replicate (DHCP_MIN_PACKET_SIZE - (o2 + 1)) OPTION_PAD) := by
    rw [hbs]
    simp only [List.append_assoc]
    rw [show (OPTIONS_START_OFFSET : Nat) = fb.length by simp [OPTIONS_START_OFFSET, hfblen]]
    exact List.drop_left fb _
  rw [hdrop]
  simp only [DHCP_PACKET_OPTIONS] at ho
  rcases packOptions_cons_inv ho with ⟨hg0, ho1⟩ |
      ⟨v0, d0, rB0, hg0, hp0, hn0, hl0, ho1, hob0⟩
  · -- time_offset absent: routers' record leads the region
    rcases packOptions_cons_inv ho1 with ⟨hgr, _⟩ |
        ⟨vr2, dr, rBr, hgr, hpr, hnr, hlr, hor, hobr⟩
    · exact absurd (hgr.symm.trans hr) (by simp)
    rcases packOptions_cons_inv hor with ⟨hgs, _⟩ |
        ⟨vs2, ds, rBs, hgs, hps, hns, hls, hos, hobs⟩
    · exact absurd (hgs.symm.trans hs) (by simp)
    subst hobr
    subst hobs
    rw [show (((OPTION_ROUTERS.number :: dr.length :: dr) ++
            ((OPTION_SUBNET_MASK.number :: ds.length :: ds) ++ rBs)) ++
          ([OPTION_END] ++ List.replicate (DHCP_MIN_PACKET_SIZE - (o2 + 1)) OPTION_PAD)) =
        OPTION_ROUTERS.number :: dr.length :: (dr ++
          (OPTION_SUBNET_MASK.number :: ds.length :: (ds ++ (rBs ++
            ([OPTION_END] ++ List.replicate (DHCP_MIN_PACKET_SIZE - (o2 + 1)) OPTION_PAD)))))
        by simp]
    refine ⟨0, 0 + 2 + dr.length, ?_, ?_, by omega⟩
    · exact findTagPos_hit _ _ _ (by decide) (by decide)
    · rw [findTagPos_skip _ _ _ _ _ (by decide) (by decide) (by decide)]
      exact findTagPos_hit _ _ _ (by decide) (by decide)
  · -- time_offset present: its record is walked first
    rcases packOptions_cons_inv ho1 with ⟨hgr, _⟩ |
        ⟨vr2, dr, rBr, hgr, hpr, hnr, hlr, hor, hobr⟩
    · exact absurd (hgr.symm.trans hr) (by simp)
    rcases packOptions_cons_inv hor with ⟨hgs, _⟩ |
        ⟨vs2, ds, rBs, hgs, hps, hns, hls, hos, hobs⟩
    · exact absurd (hgs.symm.trans hs) (by simp)
    subst hob0
    subst hobr
    subst hobs
    rw [show ((((OPTION_TIME_OFFSET.number :: d0.length :: d0) ++
            ((OPTION_ROUTERS.number :: dr.length :: dr) ++
              ((OPTION_SUBNET_MASK.number :: ds.length :: ds) ++ rBs)))) ++
          ([OPTION_END] ++ List.replicate (DHCP_MIN_PACKET_SIZE - (o2 + 1)) OPTION_PAD)) =
        OPTION_TIME_OFFSET.number :: d0.length :: (d0 ++
          (OPTION_ROUTERS.number :: dr.length :: (dr ++
            (OPTION_SUBNET_MASK.number :: ds.length :: (ds ++ (rBs ++
              ([OPTION_END] ++ List.replicate (DHCP_MIN_PACKET_SIZE - (o2 + 1)) OPTION_PAD)))))))
        by simp]
    refine ⟨0 + 2 + d0.length, 0 + 2 + d0.length + 2 + dr.length, ?_, ?_, by omega⟩
    · rw [findTagPos_skip _ _ _ _ _ (by decide) (by decide) (by decide)]
      exact findTagPos_hit _ _ _ (by decide) (by decide)
    · rw [findTagPos_skip _ _ _ _ _ (by decide) (by decide) (by decide)]
      rw [findTagPos_skip _ _ _ _ _ (by decide) (by decide) (by decide)]
      exact findTagPos_hit _ _ _ (by decide) (by decide)


/-- A valid packet with both the routers and subnet-mask options set,
subnet-mask inserted first. -/
def p2 : DhcpPacket :=
  ((DhcpPacket.create_discovery_packet 7 [0, 17, 34, 51, 68, 85]).set_option
    OPTION_SUBNET_MASK (.ip ⟨255, 255, 255, 0⟩)).set_option OPTION_ROUTERS
    (.ipList [⟨10, 0, 0, 1⟩])

/-- The bytes of `p2`. -/
def p2bytes : List Nat :=
  match p2.to_binary_string with
  | .ok (some bs) => bs
  | _ => []

/-- C2 counterexample: in the encoding of `p2`, the subnet-mask tag byte
is at options-region offset 6, strictly after the routers tag byte at
offset 0 — the opposite of the claimed order. -/
theorem subnet_before_routers_counterexample :
    p2.to_binary_string = Except.ok (some p2bytes) ∧
    findTagPos (p2bytes.drop OPTIONS_START_OFFSET) OPTION_SUBNET_MASK.number 0 = some 6 ∧
    findTagPos (p2bytes.drop OPTIONS_START_OFFSET) OPTION_ROUTERS.number 0 = some 0 ∧
    ¬ (6 < 0) := by
  refine ⟨rfl, ?_, ?_, by omega⟩
  · rw [show p2bytes.drop OPTIONS_START_OFFSET =
        OPTION_ROUTERS.number :: ([10, 0, 0, 1] : List Nat).length ::
          (([10, 0, 0, 1] : List Nat) ++
          (OPTION_SUBNET_MASK.number :: 4 :: (255 :: 255 :: 255 :: 0 :: (53 :: 1 :: 1 :: 255 ::
            List.replicate 44 0)))) from by decide]
    rw [findTagPos_skip _ _ _ _ _ (by decide) (by decide) (by decide)]
    rw [findTagPos_hit _ _ _ (by decide) (by decide)]
    decide
  · rw [show p2bytes.drop OPTIONS_START_OFFSET =
        OPTION_ROUTERS.number :: ([10, 0, 0, 1] : List Nat).length ::
          (([10, 0, 0, 1] : List Nat) ++
          (OPTION_SUBNET_MASK.number :: 4 :: (255 :: 255 :: 255 :: 0 :: (53 :: 1 :: 1 :: 255 ::
            List.replicate 44 0)))) from by decide]
    exact findTagPos_hit _ _ _ (by decide) (by decide)

/-- Witness for C2 (amended) at `p2`. -/
theorem routers_before_subnet_witness :
    ∃ i j, findTagPos (p2bytes.drop OPTIONS_START_OFFSET) OPTION_ROUTERS.number 0 = some i ∧
      findTagPos (p2bytes.drop OPTIONS_START_OFFSET) OPTION_SUBNET_MASK.number 0 = some j ∧
      i < j :=
  routers_before_subnet p2 p2bytes (Value.ipList [⟨10, 0, 0, 1⟩])
    (Value.ip ⟨255, 255, 255, 0⟩) (by rfl) (by rfl) (by rfl)

/-! ## The C1 counterexample: a valid packet with a 12-byte chaddr -/

/-- The field mapping decoded from `witnessBytes`: note the 16-byte
hardware address. -/
def witnessDecodedFields : List (Field × Value) := [
  (FIELD_OP, .int 1), (FIELD_HWTYPE, .int 1), (FIELD_HWADDR_LEN, .int 6),
  (FIELD_RELAY_HOPS, .int 0), (FIELD_TRANSACTION_ID, .int 3735928559),
  (FIELD_TIME_SINCE_START, .int 0), (FIELD_FLAGS, .int 0),
  (FIELD_CLIENT_IP, .ip ⟨0, 0, 0, 0⟩), (FIELD_YOUR_IP, .ip ⟨0, 0, 0, 0⟩),
  (FIELD_SERVER_IP, .ip ⟨0, 0, 0, 0⟩), (FIELD_GATEWAY_IP, .ip ⟨0, 0, 0, 0⟩),
  (FIELD_CLIENT_HWADDR, .str [0, 17, 34, 51, 68, 85, 0, 0, 0, 0, 0, 0, 0, 0, 0, 0]),
  (FIELD_MAGIC_COOKIE, .int 0x63825363)]

theorem witnessBytes_decode :
    DhcpPacket.ofBytes witnessBytes =
      .ok ⟨witnessDecodedFields, [(OPTION_DHCP_MESSAGE_TYPE, Value.int 1)]⟩ := by
  have hpw : parseOptions witnessBytes OPTIONS_START_OFFSET [] =
      .ok [(OPTION_DHCP_MESSAGE_TYPE, Value.int 1)] := by
    have h1 : parseOptions (witnessBytes.take 240 ++ witnessBytes.drop 240)
        (witnessBytes.take 240).length [] = parseList (witnessBytes.drop 240) [] :=
      parseOptions_eq_parseList _ _ _
    rw [List.take_append_drop] at h1
    rw [show ((witnessBytes.take 240).length) = OPTIONS_START_OFFSET from by decide] at h1
    rw [h1]
    rw [show witnessBytes.drop 240 = 53 :: 1 :: 1 :: 255 :: List.replicate 56 0 from by decide]
    simp [parseList_cons, parseList_nil, OPTION_END, OPTION_PAD,
      show get_dhcp_option_by_number 53 = some OPTION_DHCP_MESSAGE_TYPE from rfl,
      show OPTION_DHCP_MESSAGE_TYPE.unpack [1] = some (Value.int 1) from rfl, alSet]
  rw [DhcpPacket.ofBytes, if_neg (by decide)]
  rw [show unpackFields DHCP_PACKET_FIELDS witnessBytes = some witnessDecodedFields
    from by decide]
  dsimp only
  rw [hpw]

/-- C1 counterexample: `witnessPacket` is valid and stores a 12-byte
hardware-address value, but decoding its own encoding yields a packet
whose hardware-address value is the 16-byte zero-padded string — the
round trip does not restore the chaddr field. -/
theorem roundtrip_chaddr_counterexample :
    witnessPacket.is_valid = true ∧
    witnessPacket.to_binary_string = Except.ok (some witnessBytes) ∧
    witnessPacket.get_field FIELD_CLIENT_HWADDR =
      some (Value.str [0, 17, 34, 51, 68, 85, 0, 0, 0, 0, 0, 0]) ∧
    DhcpPacket.ofBytes witnessBytes =
      .ok ⟨witnessDecodedFields, [(OPTION_DHCP_MESSAGE_TYPE, Value.int 1)]⟩ ∧
    (DhcpPacket.mk witnessDecodedFields
        [(OPTION_DHCP_MESSAGE_TYPE, Value.int 1)]).get_field FIELD_CLIENT_HWADDR =
      some (Value.str [0, 17, 34, 51, 68, 85, 0, 0, 0, 0, 0, 0, 0, 0, 0, 0]) ∧
    some (Value.str [0, 17, 34, 51, 68, 85, 0, 0, 0, 0, 0, 0, 0, 0, 0, 0]) ≠
      some (Value.str [0, 17, 34, 51, 68, 85, 0, 0, 0, 0, 0, 0]) :=
  ⟨rfl, rfl, rfl, witnessBytes_decode, rfl, by decide⟩

/-- A valid packet whose stored hardware-address value is exactly 16
bytes long. -/
def packet16 : DhcpPacket :=
  (DhcpPacket.create_discovery_packet 7 [0, 17, 34, 51, 68, 85]).set_field
    FIELD_CLIENT_HWADDR (.str (List.replicate 16 7))

/-- The bytes of `packet16`. -/
def packet16Bytes : List Nat :=
  match packet16.to_binary_string with
  | .ok (some bs) => bs
  | _ => []

set_option maxHeartbeats 1600000 in
/-- Witness for C1 (amended) at `packet16`. -/
theorem decode_encode_roundtrip_witness :
    ∃ p', DhcpPacket.ofBytes packet16Bytes = .ok p' ∧
      (∀ f ∈ DHCP_PACKET_FIELDS, p'.get_field f = packet16.get_field f) ∧
      (∀ o ∈ DHCP_PACKET_OPTIONS, p'.get_option o = packet16.get_option o) :=
  decode_encode_roundtrip packet16 packet16Bytes (List.replicate 16 7)
    (by rfl) (by decide) (by rfl)

/-! ## Unknown-option tolerance (C6) -/

theorem pySlice_append_left (pre X : List Nat) (off k : Nat)
    (h : off + k ≤ pre.length) :
    pySlice (pre ++ X) off k = (pre.drop off).take k := by
  simp only [pySlice]
  rw [List.drop_append_eq_append_drop, List.take_append_eq_append_take]
  have h1 : off - pre.length = 0 := by omega
  have h2 : k - (pre.drop off).length = 0 := by
    simp only [List.length_drop]
    omega
  rw [h1, h2]
  simp

theorem unpackFields_congr {fs : List Field} {bs1 bs2 : List Nat}
    (h : ∀ f ∈ fs, pySlice bs1 f.offset f.size = pySlice bs2 f.offset f.size) :
    unpackFields fs bs1 = unpackFields fs bs2 := by
  induction fs with
  | nil => rfl
  | cons f rest ih =>
      simp only [unpackFields]
      rw [h f (by simp), ih (fun g hg => h g (by simp [hg]))]

set_option maxHeartbeats 800000 in
/-- C6: an option record with an unknown tag, together with its length
byte and payload, is skipped without a fault: the parsing loop treats the
buffer exactly as if the record were absent (for any accumulated
options), and decoding the whole buffer — fields, options and hence
`is_valid` — gives the same result as decoding the buffer with the
record removed, continuing with any later options. -/
theorem unknown_option_skipped (header payload rest : List Nat) (t L : Nat)
    (hh : header.length = 240)
    (hu : get_dhcp_option_by_number t = none)
    (ht0 : t ≠ OPTION_PAD) (ht255 : t ≠ OPTION_END)
    (hL : payload.length = L) (hr : rest ≠ []) :
    (∀ acc, parseList (t :: L :: (payload ++ rest)) acc = parseList rest acc) ∧
    DhcpPacket.ofBytes (header ++ (t :: L :: (payload ++ rest))) =
      DhcpPacket.ofBytes (header ++ rest) := by
  have hskip : ∀ acc, parseList (t :: L :: (payload ++ rest)) acc = parseList rest acc := by
    intro acc
    rw [parseList_cons, if_neg ht255, if_neg ht0]
    dsimp only
    rw [hu]
    dsimp only
    rw [← hL, List.drop_left]
  refine ⟨hskip, ?_⟩
  have hlen1 : ¬ ((header ++ (t :: L :: (payload ++ rest))).length <
      OPTIONS_START_OFFSET + 1) := by
    simp only [List.length_append, List.length_cons, hh, OPTIONS_START_OFFSET]
    omega
  have hlen2 : ¬ ((header ++ rest).length < OPTIONS_START_OFFSET + 1) := by
    have hne : rest.length ≠ 0 := fun h0 => hr (List.eq_nil_of_length_eq_zero h0)
    simp only [List.length_append, hh, OPTIONS_START_OFFSET]
    omega
  rw [DhcpPacket.ofBytes, DhcpPacket.ofBytes, if_neg hlen1, if_neg hlen2]
  have hbound : ∀ f ∈ DHCP_PACKET_FIELDS, f.offset + f.size ≤ 240 := by decide
  have hfields : unpackFields DHCP_PACKET_FIELDS (header ++ (t :: L :: (payload ++ rest))) =
      unpackFields DHCP_PACKET_FIELDS (header ++ rest) := by
    apply unpackFields_congr
    intro f hf
    rw [pySlice_append_left _ _ _ _ (by rw [hh]; exact hbound f hf),
      pySlice_append_left _ _ _ _ (by rw [hh]; exact hbound f hf)]
  have hpa : parseOptions (header ++ (t :: L :: (payload ++ rest)))
      OPTIONS_START_OFFSET [] = parseList (t :: L :: (payload ++ rest)) [] := by
    rw [show (OPTIONS_START_OFFSET : Nat) = header.length by simp [OPTIONS_START_OFFSET, hh]]
    exact parseOptions_eq_parseList _ _ _
  have hpb : parseOptions (header ++ rest) OPTIONS_START_OFFSET [] =
      parseList rest [] := by
    rw [show (OPTIONS_START_OFFSET : Nat) = header.length by simp [OPTIONS_START_OFFSET, hh]]
    exact parseOptions_eq_parseList _ _ _
  rw [hfields]
  cases hcase : unpackFields DHCP_PACKET_FIELDS (header ++ rest) with
  | none => rfl
  | some fields =>
      dsimp only
      rw [hpa, hpb, hskip []]

/-- Witness for C6: a record with unknown tag 99, length 3 and payload
`[1, 2, 3]` at the start of the options region of a 240-byte zero
header, followed by the end marker. -/
theorem unknown_option_skipped_witness :
    (parseList (99 :: 3 :: (([1, 2, 3] : List Nat) ++ [255])) [] = parseList [255] []) ∧
    DhcpPacket.ofBytes (List.replicate 240 0 ++ (99 :: 3 :: (([1, 2, 3] : List Nat) ++ [255]))) =
      DhcpPacket.ofBytes (List.replicate 240 0 ++ [255]) :=
  have h := unknown_option_skipped (List.replicate 240 0) [1, 2, 3] [255] 99 3
    (by decide) (by decide) (by decide) (by decide) (by decide) (by decide)
  ⟨h.1 [], h.2⟩

/-- Witness for C8 at `witnessPacket` (transaction id `0xDEADBEEF`). -/
theorem transaction_id_bytes_witness :
    pySlice witnessBytes 4 4 = be32 (Int.toNat 3735928559) :=
  transaction_id_bytes witnessPacket witnessBytes 3735928559 (by rfl)
    (by decide) (by rfl)

end Dhcp
